import Mathlib

/-!
Verification of the GNX-CLI memory OS and token optimizer.

Shallow embedding of the Python modules `src/memory/*` and
`src/token_optimizer/*` of the GNX-CLI repository, together with proofs of
the specification claims about them.

Modelling conventions:
* Python floats stored in data (timestamps, embeddings, thresholds) are
  modelled as rationals `ℚ`; arithmetic that stays inside `+ - * /` is exact
  and is carried out in `ℚ`.  `math.sqrt` forces the vector-similarity
  functions into `ℝ`.
* `time.time()` is passed explicitly as a `now : ℚ` parameter.
* Python exceptions (`raise ValueError`) are modelled with `Except String`.
* Mutation is modelled by explicit state passing; every method that mutates
  an object returns the updated value.
-/

set_option maxRecDepth 10000

namespace GnxCli

/-! ## `src/memory/types.py` -/

/-- Embedding of `MemoryTier` (`types.py`): HOT / WARM / COLD velocity of a
memory. -/
inductive MemoryTier
  | HOT
  | WARM
  | COLD
deriving DecidableEq, Repr

/-- Embedding of the `MemoryCube` dataclass (`types.py`).  Float fields are
modelled as `ℚ`. -/
structure MemoryCube where
  id : String
  content : String
  timestamp : ℚ
  embedding : List ℚ
  tier : MemoryTier
  access_count : ℕ := 0
  last_access : ℚ := 0
  source_summary : Bool := false
  tags : List String := []
  source : Option String := none
deriving DecidableEq, Repr

/-- Embedding of `MemoryCube.heat_score` (`types.py`): returns `0.0` when
`access_count == 0`, otherwise `access_count * (1 / (1 + (now - last_access)
/ 3600))`.  `time.time()` is passed as `now`. -/
def MemoryCube.heat_score (c : MemoryCube) (now : ℚ) : ℚ :=
  if c.access_count = 0 then 0
  else
    let time_decay : ℚ := 1 / (1 + (now - c.last_access) / 3600)
    (c.access_count : ℚ) * time_decay

/-! ## `src/memory/vector_search.py` — index state and mutations

The similarity-search methods need `ℝ` (for `math.sqrt`) and are defined
further below; the state of a `VectorIndex` and its mutating methods are
plain list operations. -/

/-- Remove the first cube whose `id` equals `cube_id`; embedding of the loop
in `VectorIndex.remove` (`vector_search.py`), which deletes the first
match. -/
def removeFirstById : List MemoryCube → String → List MemoryCube
  | [], _ => []
  | c :: rest, cube_id =>
      if c.id = cube_id then rest else c :: removeFirstById rest cube_id

/-- Embedding of the `VectorIndex` state (`vector_search.py`): the `_items`
list. -/
structure VectorIndex where
  items : List MemoryCube
deriving DecidableEq, Repr

/-- Embedding of `VectorIndex.add`: append the cube to `_items`. -/
def VectorIndex.add (idx : VectorIndex) (cube : MemoryCube) : VectorIndex :=
  { items := idx.items ++ [cube] }

/-- Embedding of `VectorIndex.add_batch`: extend `_items` with the cubes. -/
def VectorIndex.add_batch (idx : VectorIndex) (cubes : List MemoryCube) :
    VectorIndex :=
  { items := idx.items ++ cubes }

/-- Embedding of `VectorIndex.remove` (state part; the returned `bool` only
gates the disk save of the warm tier). -/
def VectorIndex.remove (idx : VectorIndex) (cube_id : String) : VectorIndex :=
  { items := removeFirstById idx.items cube_id }

/-- Embedding of `VectorIndex.get_all`. -/
def VectorIndex.get_all (idx : VectorIndex) : List MemoryCube :=
  idx.items

/-! ## `src/memory/warm_tier.py`

The persistence (`save`/`load` JSON files), the embedding manager and the
analytics logger do not affect the tier logic; the warm tier state is its
vector index. -/

/-- Warm tier state (`warm_tier.py`): its `VectorIndex`. -/
structure WarmTier where
  index : VectorIndex
deriving DecidableEq, Repr

/-- Embedding of `WarmTier.get_all`. -/
def WarmTier.get_all (w : WarmTier) : List MemoryCube :=
  w.index.get_all

/-- Embedding of `WarmTier.remove` (state part; disk save elided). -/
def WarmTier.remove (w : WarmTier) (memory_id : String) : WarmTier :=
  { index := w.index.remove memory_id }

/-- Embedding of `WarmTier.prune_cold` (`warm_tier.py`): collect the cubes
with `heat_score() < threshold` and `last_access < now - max_age_hours*3600`.
The Python method only reads the index; the embedding reflects that by
returning the candidate list without producing a new state. -/
def WarmTier.prune_cold (w : WarmTier) (threshold : ℚ := 1/10)
    (max_age_hours : ℚ := 24) (now : ℚ := 0) : List MemoryCube :=
  let cutoff_time := now - max_age_hours * 3600
  w.index.get_all.filter (fun c =>
    decide (c.heat_score now < threshold) && decide (c.last_access < cutoff_time))

/-! ## `src/memory/cold_tier.py`

The archive file on disk and the in-memory `_cache` are kept in sync by the
code (every mutation rewrites both); the state is the archived cube list. -/

/-- Cold tier state (`cold_tier.py`). -/
structure ColdTier where
  archive : List MemoryCube
deriving DecidableEq, Repr

/-- Embedding of `ColdTier.save`: sets `tier = COLD` on each incoming cube
and appends them to the existing archive. -/
def ColdTier.save (t : ColdTier) (memories : List MemoryCube) : ColdTier :=
  { archive := t.archive ++ memories.map (fun m => { m with tier := MemoryTier.COLD }) }

/-- Embedding of `ColdTier.rehydrate`: first cube with the given id. -/
def ColdTier.rehydrate (t : ColdTier) (memory_id : String) : Option MemoryCube :=
  t.archive.find? (fun m => decide (m.id = memory_id))

/-- Embedding of `ColdTier.remove`: delete the first cube with the given id. -/
def ColdTier.remove (t : ColdTier) (memory_id : String) : ColdTier :=
  { archive := removeFirstById t.archive memory_id }

/-- Embedding of `ColdTier.get_all`. -/
def ColdTier.get_all (t : ColdTier) : List MemoryCube :=
  t.archive

/-! ## `src/memory/memory_os.py` -/

/-- State of `AdvancedMemoryOS`: its warm and cold tiers (the hot tier does
not participate in archive/rehydrate). -/
structure AdvancedMemoryOS where
  warm : WarmTier
  cold : ColdTier
deriving DecidableEq, Repr

/-- Embedding of `AdvancedMemoryOS.archive_cold_memories`: prune the warm
tier with the default threshold `0.1` and max age `24h`, remove every
candidate from warm by id, and append the candidates to cold storage. -/
def AdvancedMemoryOS.archive_cold_memories (os : AdvancedMemoryOS) (now : ℚ) :
    AdvancedMemoryOS :=
  let candidates := os.warm.prune_cold (1/10) 24 now
  if candidates.isEmpty then os
  else
    { warm := candidates.foldl (fun w m => w.remove m.id) os.warm
      cold := os.cold.save candidates }

/-- Embedding of `AdvancedMemoryOS.rehydrate_memory`: look the id up in cold
storage; when found, set its tier to `WARM`, add it to the warm index and
remove it from cold storage.  Returns the rehydrated cube like the Python
method does. -/
def AdvancedMemoryOS.rehydrate_memory (os : AdvancedMemoryOS)
    (memory_id : String) : AdvancedMemoryOS × Option MemoryCube :=
  match os.cold.rehydrate memory_id with
  | none => (os, none)
  | some cube =>
      let cube2 := { cube with tier := MemoryTier.WARM }
      ({ warm := { index := os.warm.index.add cube2 }
         cold := os.cold.remove memory_id },
       some cube2)

/-! ## `src/memory/vector_search.py` — similarity search

`math.sqrt` forces these definitions into `ℝ`, hence they are noncomputable;
the stored float values remain `ℚ` and are cast into `ℝ` where the Python
code does float arithmetic.  A `raise ValueError` is an `Except.error`. -/

/-- Embedding of `cosine_similarity` (`vector_search.py`): raises on a
dimension mismatch, returns `0.0` when either vector has zero norm, and
otherwise the dot product divided by the product of the Euclidean norms. -/
noncomputable def cosine_similarity (vec_a vec_b : List ℚ) :
    Except String ℝ :=
  if vec_a.length ≠ vec_b.length then
    let la := vec_a.length
    let lb := vec_b.length
    Except.error (s!"Vector dimension mismatch: {la} vs {lb}")
  else
    let dot_product : ℝ := ((vec_a.zip vec_b).map (fun (p : ℚ × ℚ) => (p.1 : ℝ) * (p.2 : ℝ))).sum
    let norm_a : ℝ := Real.sqrt ((vec_a.map (fun (a : ℚ) => (a : ℝ) * (a : ℝ))).sum)
    let norm_b : ℝ := Real.sqrt ((vec_b.map (fun (b : ℚ) => (b : ℝ) * (b : ℝ))).sum)
    if norm_a = 0 ∨ norm_b = 0 then Except.ok 0
    else Except.ok (dot_product / (norm_a * norm_b))

open Classical in
/-- Embedding of the threshold test in `VectorIndex.search`:
`threshold is None or score >= threshold`. -/
noncomputable def passesThreshold (threshold : Option ℝ) (score : ℝ) : Bool :=
  match threshold with
  | none => true
  | some t => decide (t ≤ score)

open Classical in
/-- Comparator realising `scored.sort(key=lambda x: x[1], reverse=True)`:
The Python sort is stable, and `List.mergeSort` with this `le` keeps the left
element exactly when its score is not smaller, which reproduces a stable
descending sort on the second component. -/
noncomputable def scoreDescLe (x y : MemoryCube × ℝ) : Bool :=
  decide (y.2 ≤ x.2)

/-- Embedding of `VectorIndex.search` (`vector_search.py`): score every item
with `cosine_similarity` (propagating the dimension-mismatch error), keep
the ones passing the threshold, sort by score descending, return the first
`k`. -/
noncomputable def VectorIndex.search (idx : VectorIndex)
    (query_vector : List ℚ) (k : ℕ := 5) (threshold : Option ℝ := none) :
    Except String (List (MemoryCube × ℝ)) :=
  if idx.items.isEmpty then Except.ok []
  else do
    let scored ← idx.items.foldlM
      (fun acc cube => do
        let score ← cosine_similarity query_vector cube.embedding
        if passesThreshold threshold score then
          pure (acc ++ [(cube, score)])
        else
          pure acc)
      ([] : List (MemoryCube × ℝ))
    Except.ok ((scored.mergeSort scoreDescLe).take k)

/-- The per-cube combined score used by `search_with_heat`: the
normalisation maximum is the Python `max(heat scores, default=1.0)` with a
zero maximum replaced by `1.0`. -/
noncomputable def combinedHeatScore (items : List MemoryCube)
    (heat_weight : ℚ) (now : ℚ) (cube : MemoryCube)
    (similarity : ℝ) : ℝ :=
  let max_heat : ℚ :=
    match items.map (fun c => c.heat_score now) with
    | [] => 1
    | h :: rest => if rest.foldl max h = 0 then 1 else rest.foldl max h
  let normalized_heat : ℚ := cube.heat_score now / max_heat
  (1 - (heat_weight : ℝ)) * similarity + (heat_weight : ℝ) * (normalized_heat : ℝ)

/-- Embedding of `VectorIndex.search_with_heat` (`vector_search.py`): score
each member with `(1 - heat_weight) * similarity + heat_weight *
normalized_heat`, sort descending, return the first `k`. -/
noncomputable def VectorIndex.search_with_heat (idx : VectorIndex)
    (query_vector : List ℚ) (k : ℕ := 5) (heat_weight : ℚ := 3/10)
    (now : ℚ := 0) : Except String (List (MemoryCube × ℝ)) :=
  if idx.items.isEmpty then Except.ok []
  else do
    let scored ← idx.items.foldlM
      (fun acc cube => do
        let similarity ← cosine_similarity query_vector cube.embedding
        pure (acc ++
          [(cube, combinedHeatScore idx.items heat_weight now cube similarity)]))
      ([] : List (MemoryCube × ℝ))
    Except.ok ((scored.mergeSort scoreDescLe).take k)

/-! ## `src/memory/hot_tier.py` — summary hand-off

The summary text itself is produced by the LangChain
`ConversationSummaryBufferMemory` (an external library); the observable
interface of `HotTier` is the pair (current summary, last consumed summary)
and the `consume_summary` logic, which is from the source.  A library
summary update is modelled as an arbitrary `set_summary` event. -/

/-- Summary-related state of `HotTier`: `summary` models
`get_summary()` (the LangChain moving summary buffer, or the empty string
when there is none), and
`last_summary` models `_last_summary` (initially `""`). -/
structure HotTierState where
  summary : String
  last_summary : String
deriving DecidableEq, Repr

/-- Embedding of `HotTier.consume_summary`: deliver the current summary when
it is non-empty (Python truthiness) and differs from `_last_summary`, and
record it as consumed; otherwise deliver nothing and leave the state alone. -/
def HotTierState.consume_summary (s : HotTierState) :
    Option String × HotTierState :=
  if s.summary ≠ "" ∧ s.summary ≠ s.last_summary then
    (some s.summary, { s with last_summary := s.summary })
  else
    (none, s)

/-- Events observable at the summary interface of the hot tier: the LangChain
buffer replacing the summary (triggered from `add_turn`), or a
`consume_summary()` call. -/
inductive HotEvent
  | set_summary (s : String)
  | consume
deriving DecidableEq, Repr

/-- One step of the hot-tier summary interface. -/
def hotStep (st : HotTierState) : HotEvent → Option String × HotTierState
  | .set_summary s => (none, { st with summary := s })
  | .consume => st.consume_summary

/-- The summaries delivered (returned non-`None`) along a trace of events. -/
def hotDeliveries (st : HotTierState) : List HotEvent → List String
  | [] => []
  | e :: rest =>
      match hotStep st e with
      | (some s, st2) => s :: hotDeliveries st2 rest
      | (none, st2) => hotDeliveries st2 rest

/-! ## LangChain message model

The optimizer operates on LangChain `BaseMessage` values.  Only the fields
the optimizer and token counter inspect are modelled: the concrete class
(role), the content (a string or a list of parts), `AIMessage.tool_calls`
and `ToolMessage.name`.  A content part is the dict `{"type": "text",
"text": ...}`, the dict `{"type": "image_url", "image_url": {"url": ...}}`
(a missing or empty url is modelled as `""`, which is how `dict.get`
defaults surface it), a dict of some other type (carrying its `str(part)`
representation, which is all the token counter uses), or a bare string. -/

inductive ContentPart
  | text (s : String)
  | image_url (url : String)
  | otherDict (typeName : String) (reprStr : String)
  | rawStr (s : String)
deriving DecidableEq, Repr

inductive MsgContent
  | str (s : String)
  | parts (l : List ContentPart)
deriving DecidableEq, Repr

/-- One entry of `AIMessage.tool_calls`: its `name` and `str(args)` (the
empty string models an empty/missing `args` dict, which is falsy). -/
structure ToolCall where
  name : String
  argsRepr : String
deriving DecidableEq, Repr

inductive MsgRole
  | system
  | human
  | ai
  | tool
deriving DecidableEq, Repr

structure Message where
  role : MsgRole
  content : MsgContent
  tool_calls : List ToolCall := []
  name : String := ""
deriving DecidableEq, Repr

/-! ## `src/utils/image_utils.py` -/

/-- Embedding of `DEFAULT_IMAGE_TOKENS`. -/
def DEFAULT_IMAGE_TOKENS : ℕ := 1000

/-- Attempt of the regex `data:image/[^;]+;base64,(.+)` at the start of the
character list (`re.match`); returns the length of the captured base64 group
on success.  `[^;]+` is greedy and cannot cross a `;`, so the match is the
run up to the first `;`, which must be followed by `base64,`; `(.+)` then
captures up to the next newline (no DOTALL) and must be non-empty. -/
def matchDataImageB64Len (l : List Char) : Option ℕ :=
  if l.take 11 = "data:image/".toList then
    let rest1 := (l.drop 11).takeWhile (fun c => !(c = ';'))
    if rest1.isEmpty then none
    else
      let rest2 := (l.drop 11).drop rest1.length
      if rest2.take 8 = ";base64,".toList then
        let grp := (rest2.drop 8).takeWhile (fun c => !(c = '\n'))
        if grp.isEmpty then none else some grp.length
      else none
  else none

/-- Embedding of `estimate_image_size_from_base64` (`image_utils.py`),
returning only the token estimate (the category string is unused by the
token counter).  The Python float chain `approx_bytes = int(len * 0.75)`,
`approx_pixels = approx_bytes * 8 / 3`, `approx_side = int(pixels ** 0.5)`
is modelled with exact integer arithmetic (`0.75 * n` is exact in binary
floating point; the final square root is modelled by `Nat.sqrt` of the
rational floor). -/
def estimate_image_size_from_base64 (data_url : String) : ℕ :=
  if data_url = "" then DEFAULT_IMAGE_TOKENS
  else if data_url.startsWith ("data:") then
    match matchDataImageB64Len data_url.toList with
    | none => DEFAULT_IMAGE_TOKENS
    | some b64_length =>
        let approx_bytes := (3 * b64_length) / 4
        let approx_pixels := (approx_bytes * 8) / 3
        let approx_side := Nat.sqrt approx_pixels
        if approx_side < 128 then 200
        else if approx_side < 256 then 400
        else if approx_side < 512 then 800
        else if approx_side < 1024 then 1500
        else if approx_side < 2048 then 2500
        else 4000
  else DEFAULT_IMAGE_TOKENS

/-- Embedding of `estimate_image_tokens` (`image_utils.py`) applied to an
`image_url` part: `0` when the url is missing/empty, the base64 estimate for
data urls, `DEFAULT_IMAGE_TOKENS` otherwise. -/
def estimate_image_tokens (url : String) : ℕ :=
  if url = "" then 0
  else if url.startsWith ("data:image") then estimate_image_size_from_base64 url
  else DEFAULT_IMAGE_TOKENS

/-! ## `src/utils/token_counter.py` -/

/-- Embedding of `MESSAGE_OVERHEAD`. -/
def MESSAGE_OVERHEAD : ℕ := 4

/-- Embedding of `count_tokens_approximate`: `0` for the empty string, else
`max(1, int(len(text) * 0.25))`.  `n * 0.25` is exact in binary floating
point, so `int` of it is `n / 4` in natural division. -/
def count_tokens_approximate (text : String) : ℕ :=
  if text = "" then 0 else max 1 (text.length / 4)

/-- Token count of one content part, following the branches of
`count_content_tokens`.  An unknown dict part is counted from the first 200
characters of its `str(part)` representation. -/
def count_part_tokens : ContentPart → ℕ
  | .text s => count_tokens_approximate s
  | .image_url url => estimate_image_tokens url
  | .otherDict _ reprStr => count_tokens_approximate (reprStr.take 200)
  | .rawStr s => count_tokens_approximate s

/-- Embedding of `count_content_tokens`. -/
def count_content_tokens : MsgContent → ℕ
  | .str s => count_tokens_approximate s
  | .parts l => (l.map count_part_tokens).sum

/-- Embedding of `count_message_tokens`: content tokens plus the fixed
overhead, plus the tool name for `ToolMessage`s and the tool-call names and
args for `AIMessage`s. -/
def count_message_tokens (m : Message) : ℕ :=
  let content_tokens := count_content_tokens m.content
  let base := content_tokens + MESSAGE_OVERHEAD
  let base :=
    if m.role = .tool ∧ m.name ≠ "" then base + count_tokens_approximate m.name
    else base
  if m.role = .ai then
    base + (m.tool_calls.map (fun tc =>
      count_tokens_approximate tc.name +
        (if tc.argsRepr ≠ "" then count_tokens_approximate tc.argsRepr else 0))).sum
  else base

/-- Embedding of `count_messages_tokens`. -/
def count_messages_tokens (messages : List Message) : ℕ :=
  (messages.map count_message_tokens).sum

/-! ## `src/token_optimizer/strategies.py` -/

inductive OptimizationStrategy
  | NONE
  | LIGHT
  | AGGRESSIVE
  | ADAPTIVE
deriving DecidableEq, Repr

/-- Embedding of the `OptimizationConfig` dataclass with its defaults. -/
structure OptimizationConfig where
  strategy : OptimizationStrategy := .ADAPTIVE
  target_tokens : ℕ := 8000
  max_tokens : ℕ := 12000
  min_messages_keep : ℕ := 4
  max_tool_result_chars : ℕ := 2000
  max_images : ℕ := 3
  strip_old_images : Bool := true
  compress_whitespace : Bool := true
  remove_duplicates : Bool := true
  summarize_tool_results : Bool := true
deriving DecidableEq, Repr

/-- Embedding of `OptimizationConfig.for_strategy`: each branch builds a
fresh config (unmentioned fields fall back to the dataclass defaults, as in
the source). -/
def OptimizationConfig.for_strategy (c : OptimizationConfig)
    (strategy : OptimizationStrategy) : OptimizationConfig :=
  match strategy with
  | .NONE =>
      { strategy := strategy, target_tokens := c.max_tokens,
        compress_whitespace := false, remove_duplicates := false,
        summarize_tool_results := false }
  | .LIGHT =>
      { strategy := strategy, target_tokens := c.max_tokens,
        max_tool_result_chars := 5000, compress_whitespace := true,
        remove_duplicates := true, summarize_tool_results := false }
  | .AGGRESSIVE =>
      { strategy := strategy, target_tokens := c.target_tokens,
        max_tool_result_chars := 500, max_images := 1,
        compress_whitespace := true, remove_duplicates := true,
        summarize_tool_results := true }
  | .ADAPTIVE => c

/-- Embedding of the `OptimizationResult` dataclass.  `tokens_saved` is a
Python `int` and can be negative, hence `ℤ`. -/
structure OptimizationResult where
  original_tokens : ℕ
  optimized_tokens : ℕ
  tokens_saved : ℤ
  messages_pruned : ℕ
  images_removed : ℕ
  strategy_used : OptimizationStrategy
deriving DecidableEq, Repr

/-! ## Python string primitives used by the compressor and pruner -/

/-- Python `str.strip()` whitespace set (ASCII part). -/
def isPyWhitespace (c : Char) : Bool :=
  c = ' ' ∨ c = '\t' ∨ c = '\n' ∨ c = '\r' ∨ c = '\x0b' ∨ c = '\x0c'

/-- Python `str.strip()` on a character list. -/
def pyStrip (l : List Char) : List Char :=
  ((l.dropWhile isPyWhitespace).reverse.dropWhile isPyWhitespace).reverse

/-- Python `s.strip()` on a string. -/
def pyStripStr (s : String) : String :=
  String.mk (pyStrip s.toList)

/-- Python slice `s[:i]` for a possibly negative bound `i`. -/
def pySliceTo (s : String) (i : ℤ) : String :=
  if i < 0 then String.mk (s.toList.take (s.length - i.natAbs))
  else String.mk (s.toList.take i.toNat)

/-- Python `s[-n:]`: the last `n` characters. -/
def pyTakeLast (s : String) (n : ℕ) : String :=
  String.mk ((s.toList.reverse.take n).reverse)

/-! ## `src/token_optimizer/compressor.py` — whitespace and base64 -/

/-- Step one of `compress_whitespace`: the regex substitution
`re.sub(r'[ \t]+', ' ', text)` — every maximal run of spaces/tabs becomes a
single space. -/
def squeezeSpaceTab : List Char → List Char
  | [] => []
  | [c] => if c = ' ' ∨ c = '\t' then [' '] else [c]
  | c1 :: c2 :: rest =>
      if (c1 = ' ' ∨ c1 = '\t') ∧ (c2 = ' ' ∨ c2 = '\t') then
        squeezeSpaceTab (c2 :: rest)
      else
        (if c1 = ' ' ∨ c1 = '\t' then ' ' else c1) :: squeezeSpaceTab (c2 :: rest)

/-- Step two of `compress_whitespace`: the regex substitution replacing `\n`-runs of length three or more by two newlines —
every run of three or more newlines becomes exactly two (a newline followed
by at least two further newlines is dropped, keeping the final two of each
run). -/
def collapseNewlines : List Char → List Char
  | [] => []
  | c :: rest =>
      if c = '\n' ∧ rest.take 2 = ['\n', '\n'] then collapseNewlines rest
      else c :: collapseNewlines rest

/-- Python `text.split('\n')` on a character list. -/
def splitLinesOnNL : List Char → List (List Char)
  | [] => [[]]
  | '\n' :: rest => [] :: splitLinesOnNL rest
  | c :: rest =>
      match splitLinesOnNL rest with
      | [] => [[c]]
      | line :: more => (c :: line) :: more

/-- Python `'\n'.join(lines)` on character lists. -/
def joinLinesNL : List (List Char) → List Char
  | [] => []
  | [l] => l
  | l :: l2 :: rest => l ++ '\n' :: joinLinesNL (l2 :: rest)

/-- Embedding of `compress_whitespace` (`compressor.py`): squeeze space/tab
runs, collapse newline runs, then strip every line. -/
def compress_whitespace (text : String) : String :=
  let text1 := squeezeSpaceTab text.toList
  let text2 := collapseNewlines text1
  let lines := (splitLinesOnNL text2).map pyStrip
  String.mk (joinLinesNL lines)

/-- Embedding of `truncate_text` (`compressor.py`).  The slice bound
`max_chars - len(suffix)` is a Python `int` and may be negative, hence the
`pySliceTo` slice semantics. -/
def truncate_text (text : String) (max_chars : ℕ)
    (suffix : String := "...[truncated]") : String :=
  if text.length ≤ max_chars then text
  else pySliceTo text ((max_chars : ℤ) - suffix.length) ++ suffix

/-- Character class `[A-Za-z0-9+/=]` of the base64 pattern. -/
def isB64Char (c : Char) : Bool :=
  c.isAlphanum ∨ c = '+' ∨ c = '/' ∨ c = '='

/-- Attempt of the regex `data:[^;]+;base64,[A-Za-z0-9+/=]+` at the start of
the character list; returns the length of the whole match.  As in
`matchDataImageB64Len`, the greedy `[^;]+` cannot cross a `;`, so the match
shape is forced.  A successful match always has length at least `14`. -/
def matchB64PatternLen (l : List Char) : Option ℕ :=
  if l.take 5 = "data:".toList then
    let mime := (l.drop 5).takeWhile (fun c => !(c = ';'))
    if mime.isEmpty then none
    else
      let rest2 := (l.drop 5).drop mime.length
      if rest2.take 8 = ";base64,".toList then
        let run := (rest2.drop 8).takeWhile isB64Char
        if run.isEmpty then none
        else some (5 + mime.length + 8 + run.length)
      else none
  else none

/-- Scanner of `remove_base64_from_text`: walk the text, replace each
leftmost non-overlapping match with the placeholder, and total the lengths
of the removed matches (`bytes_removed`).  A match found at `c :: rest` has
length `mlen ≥ 14`, so the remainder after it is `rest.drop (mlen - 1)`.
The fuel argument only bounds the recursion (each step consumes at least
one character, so the initial fuel — the input length — is never
exhausted). -/
def removeB64Go : ℕ → List Char → List Char × ℕ
  | _, [] => ([], 0)
  | 0, l => (l, 0)
  | fuel + 1, c :: rest =>
      match matchB64PatternLen (c :: rest) with
      | some mlen =>
          let (tail, removed) := removeB64Go fuel (rest.drop (mlen - 1))
          ("<base64_data_removed>".toList ++ tail, mlen + removed)
      | none =>
          let (tail, removed) := removeB64Go fuel rest
          (c :: tail, removed)

/-- Embedding of `remove_base64_from_text` (`compressor.py`): returns the
cleaned text and the number of characters removed. -/
def remove_base64_from_text (text : String) : String × ℕ :=
  let (chars, removed) := removeB64Go text.toList.length text.toList
  (String.mk chars, removed)

/-! ## JSON layer

`summarize_tool_result` calls the Python standard library `json.loads` /
`json.dumps`; this section embeds the slice of their behaviour it relies
on: strict JSON parsing into an insertion-ordered object representation and
serialisation with the default separators `", "` / `": "` and
`ensure_ascii`.  Numeric literals are kept verbatim (Python would
re-canonicalise exotic forms such as `1e2`; none of the claims depend on
that). -/

inductive Json
  | null
  | bool (b : Bool)
  | num (lit : String)
  | str (s : String)
  | arr (items : List Json)
  | obj (fields : List (String × Json))

/-- JSON inter-token whitespace accepted by the Python scanner. -/
def jsonWs (c : Char) : Bool :=
  c = ' ' ∨ c = '\t' ∨ c = '\n' ∨ c = '\r'

/-- Value of one hex digit. -/
def hexVal (c : Char) : Option ℕ :=
  if '0' ≤ c ∧ c ≤ '9' then some (c.toNat - 48)
  else if 'a' ≤ c ∧ c ≤ 'f' then some (c.toNat - 87)
  else if 'A' ≤ c ∧ c ≤ 'F' then some (c.toNat - 55)
  else none

/-- Parse a JSON string body (after the opening quote) into its characters
and the remainder after the closing quote.  Raw control characters and
invalid escapes are rejected, as by the strict Python decoder.  A
`\uXXXX` high surrogate followed by a low surrogate is combined; a lone
surrogate (representable in a Python `str` but not in a Lean `Char`) is
approximated by the null character. -/
def parseJString : List Char → Option (List Char × List Char)
  | [] => none
  | '"' :: rest => some ([], rest)
  | '\\' :: 'u' :: h1 :: h2 :: h3 :: h4 :: '\\' :: 'u' :: g1 :: g2 :: g3 :: g4 :: rest => do
      let d1 ← hexVal h1
      let d2 ← hexVal h2
      let d3 ← hexVal h3
      let d4 ← hexVal h4
      let code := ((d1 * 16 + d2) * 16 + d3) * 16 + d4
      let pair : Option ℕ :=
        match hexVal g1, hexVal g2, hexVal g3, hexVal g4 with
        | some e1, some e2, some e3, some e4 =>
            let lo := ((e1 * 16 + e2) * 16 + e3) * 16 + e4
            if 0xd800 ≤ code ∧ code ≤ 0xdbff ∧ 0xdc00 ≤ lo ∧ lo ≤ 0xdfff then
              some (0x10000 + (code - 0xd800) * 0x400 + (lo - 0xdc00))
            else none
        | _, _, _, _ => none
      match pair with
      | some combined => do
          let (body, after) ← parseJString rest
          pure (Char.ofNat combined :: body, after)
      | none => do
          let (body, after) ← parseJString ('\\' :: 'u' :: g1 :: g2 :: g3 :: g4 :: rest)
          pure (Char.ofNat code :: body, after)
  | '\\' :: 'u' :: h1 :: h2 :: h3 :: h4 :: rest => do
      let d1 ← hexVal h1
      let d2 ← hexVal h2
      let d3 ← hexVal h3
      let d4 ← hexVal h4
      let code := ((d1 * 16 + d2) * 16 + d3) * 16 + d4
      let (body, after) ← parseJString rest
      pure (Char.ofNat code :: body, after)
  | '\\' :: e :: rest => do
      let c ←
        if e = '"' then some '"'
        else if e = '\\' then some '\\'
        else if e = '/' then some '/'
        else if e = 'b' then some '\x08'
        else if e = 'f' then some '\x0c'
        else if e = 'n' then some '\n'
        else if e = 'r' then some '\r'
        else if e = 't' then some '\t'
        else none
      let (body, after) ← parseJString rest
      pure (c :: body, after)
  | c :: rest =>
      if c.toNat < 0x20 then none
      else do
        let (body, after) ← parseJString rest
        pure (c :: body, after)
termination_by l => l.length
decreasing_by all_goals simp only [List.length_cons]; omega

/-- Parse a JSON numeric literal (the `NUMBER_RE` shape
`-?(0|[1-9]\d*)(\.\d+)?([eE][-+]?\d+)?`), returning the literal and the
remainder. -/
def parseJNumber (l : List Char) : Option (List Char × List Char) :=
  let (sign, l1) :=
    match l with
    | '-' :: rest => (['-'], rest)
    | _ => (([] : List Char), l)
  match l1 with
  | [] => none
  | d :: _ =>
      if !d.isDigit then none
      else
        let intPart :=
          if d = '0' then ['0']
          else l1.takeWhile Char.isDigit
        let l2 := l1.drop intPart.length
        let (fracPart, l3) :=
          match l2 with
          | '.' :: rest =>
              let ds := rest.takeWhile Char.isDigit
              if ds.isEmpty then (([] : List Char), l2)
              else ('.' :: ds, rest.drop ds.length)
          | _ => (([] : List Char), l2)
        let (expPart, l4) :=
          match l3 with
          | e :: rest =>
              if e = 'e' ∨ e = 'E' then
                let (es, rest2) :=
                  match rest with
                  | s :: rest2 =>
                      if s = '+' ∨ s = '-' then ([e, s], rest2)
                      else ([e], rest)
                  | [] => ([e], rest)
                let ds := rest2.takeWhile Char.isDigit
                if ds.isEmpty then (([] : List Char), l3)
                else (es ++ ds, rest2.drop ds.length)
              else (([] : List Char), l3)
          | [] => (([] : List Char), l3)
        some (sign ++ intPart ++ fracPart ++ expPart, l4)

/-- Insert a key into an insertion-ordered object: an existing key keeps its
position and takes the new value (CPython dict semantics for duplicate JSON
keys). -/
def objInsert : List (String × Json) → String → Json → List (String × Json)
  | [], k, v => [(k, v)]
  | (k0, v0) :: rest, k, v =>
      if k0 = k then (k0, v) :: rest else (k0, v0) :: objInsert rest k v

/-- Lookup in an object, as `dict.get(k)` without default. -/
def objGet : List (String × Json) → String → Option Json
  | [], _ => none
  | (k0, v0) :: rest, k => if k0 = k then some v0 else objGet rest k

/-- Lookup with default, as `dict.get(k, d)`. -/
def objGetD (fields : List (String × Json)) (k : String) (d : Json) : Json :=
  (objGet fields k).getD d

mutual

/-- Parse one JSON value at the head of the list (whitespace already
skipped by the caller).  `fuel` only bounds the recursion; every call site
passes at least the remaining input length plus one, which suffices because
every recursive call consumes at least one character. -/
def parseJValue : ℕ → List Char → Option (Json × List Char)
  | 0, _ => none
  | fuel + 1, l =>
      match l with
      | '\x7b' :: rest =>
          (match rest.dropWhile jsonWs with
           | '\x7d' :: r2 => some (.obj [], r2)
           | l2 => parseJMembers fuel l2 [])
      | '[' :: rest =>
          (match rest.dropWhile jsonWs with
           | ']' :: r2 => some (.arr [], r2)
           | l2 => parseJItems fuel l2 [])
      | '"' :: rest =>
          (parseJString rest).map (fun p => (.str (String.mk p.1), p.2))
      | _ =>
          if l.take 4 = "null".toList then some (.null, l.drop 4)
          else if l.take 4 = "true".toList then some (.bool true, l.drop 4)
          else if l.take 5 = "false".toList then some (.bool false, l.drop 5)
          else if l.take 3 = "NaN".toList then some (.num ("NaN"), l.drop 3)
          else if l.take 8 = "Infinity".toList then
            some (.num ("Infinity"), l.drop 8)
          else if l.take 9 = "-Infinity".toList then
            some (.num ("-Infinity"), l.drop 9)
          else
            (parseJNumber l).map (fun p => (.num (String.mk p.1), p.2))

/-- Parse object members starting at the opening quote of a key. -/
def parseJMembers : ℕ → List Char → List (String × Json) →
    Option (Json × List Char)
  | 0, _, _ => none
  | fuel + 1, l, acc =>
      match l with
      | '"' :: rest => do
          let (keyChars, rest2) ← parseJString rest
          match rest2.dropWhile jsonWs with
          | ':' :: rest3 => do
              let (v, rest4) ← parseJValue fuel (rest3.dropWhile jsonWs)
              let acc2 := objInsert acc (String.mk keyChars) v
              match rest4.dropWhile jsonWs with
              | ',' :: rest5 => parseJMembers fuel (rest5.dropWhile jsonWs) acc2
              | '\x7d' :: rest5 => some (.obj acc2, rest5)
              | _ => none
          | _ => none
      | _ => none

/-- Parse array items starting at the first character of an item. -/
def parseJItems : ℕ → List Char → List Json → Option (Json × List Char)
  | 0, _, _ => none
  | fuel + 1, l, acc => do
      let (v, rest) ← parseJValue fuel l
      let acc2 := acc ++ [v]
      match rest.dropWhile jsonWs with
      | ',' :: rest2 => parseJItems fuel (rest2.dropWhile jsonWs) acc2
      | ']' :: rest2 => some (.arr acc2, rest2)
      | _ => none

end

/-- Embedding of `json.loads`: skip surrounding whitespace, parse one value,
require the input to be exhausted.  `none` models a raised
`JSONDecodeError`. -/
def jsonLoads (s : String) : Option Json :=
  let l := s.toList.dropWhile jsonWs
  match parseJValue (l.length + 1) l with
  | some (v, rest) =>
      if (rest.dropWhile jsonWs).isEmpty then some v else none
  | none => none

/-- Four lowercase hex digits, as in the Python `\uXXXX` escapes. -/
def toHex4 (n : ℕ) : String :=
  let dig := fun (d : ℕ) =>
    if d < 10 then Char.ofNat (48 + d) else Char.ofNat (87 + d)
  String.mk [dig (n / 4096 % 16), dig (n / 256 % 16), dig (n / 16 % 16), dig (n % 16)]

/-- One character of `json.dumps` output with the default `ensure_ascii`:
printable ASCII except `"` and `\` is kept, the short escapes are used where
they exist, everything else becomes `\uXXXX` (with surrogate pairs beyond
the basic plane). -/
def jsonEscapeChar (c : Char) : String :=
  if c = '"' then "\\\""
  else if c = '\\' then "\\\\"
  else if c = '\n' then "\\n"
  else if c = '\r' then "\\r"
  else if c = '\t' then "\\t"
  else if c = '\x08' then "\\b"
  else if c = '\x0c' then "\\f"
  else if c.toNat < 0x20 then "\\u" ++ toHex4 c.toNat
  else if c.toNat < 0x7f then String.singleton c
  else if c.toNat ≤ 0xffff then "\\u" ++ toHex4 c.toNat
  else
    let v := c.toNat - 0x10000
    "\\u" ++ toHex4 (0xd800 + v / 0x400) ++ "\\u" ++ toHex4 (0xdc00 + v % 0x400)

/-- `json.dumps` of a string. -/
def jsonDumpString (s : String) : String :=
  "\"" ++ String.join (s.toList.map jsonEscapeChar) ++ "\""

mutual

/-- Embedding of `json.dumps` with the default separators `", "` and
`": "`. -/
def Json.dumps : Json → String
  | .null => "null"
  | .bool true => "true"
  | .bool false => "false"
  | .num lit => lit
  | .str s => jsonDumpString s
  | .arr items => "[" ++ dumpsList items ++ "]"
  | .obj fields => "\x7b" ++ dumpsFields fields ++ "\x7d"

def dumpsList : List Json → String
  | [] => ""
  | [x] => Json.dumps x
  | x :: y :: rest => Json.dumps x ++ ", " ++ dumpsList (y :: rest)

def dumpsFields : List (String × Json) → String
  | [] => ""
  | [(k, v)] => jsonDumpString k ++ ": " ++ Json.dumps v
  | (k, v) :: f :: rest =>
      jsonDumpString k ++ ": " ++ Json.dumps v ++ ", " ++ dumpsFields (f :: rest)

end

mutual

/-- Python `str(value)` / f-string rendering of a parsed JSON value, used
for the `dimensions` field of the screenshot summary. -/
def pyStrOfJson : Json → String
  | .null => "None"
  | .bool true => "True"
  | .bool false => "False"
  | .num lit => lit
  | .str s => s
  | .arr items => "[" ++ pyReprList items ++ "]"
  | .obj fields => "\x7b" ++ pyReprFields fields ++ "\x7d"

/-- Python `repr(value)` for container elements (strings quoted with a
single quote; the prefer-double-quote refinement for strings containing a
quote is not modelled — no claim depends on it). -/
def pyReprOfJson : Json → String
  | .str s => String.singleton '\x27' ++ s ++ String.singleton '\x27'
  | v => pyStrOfJson v

def pyReprList : List Json → String
  | [] => ""
  | [x] => pyReprOfJson x
  | x :: y :: rest => pyReprOfJson x ++ ", " ++ pyReprList (y :: rest)

def pyReprFields : List (String × Json) → String
  | [] => ""
  | [(k, v)] =>
      String.singleton '\x27' ++ k ++ String.singleton '\x27' ++ ": " ++ pyReprOfJson v
  | (k, v) :: f :: rest =>
      String.singleton '\x27' ++ k ++ String.singleton '\x27' ++ ": " ++ pyReprOfJson v
        ++ ", " ++ pyReprFields (f :: rest)

end

/-! ## `src/token_optimizer/compressor.py` — tool-result summarisation -/

/-- Embedding of `summarize_tool_result` (`compressor.py`): a parsed JSON
dict of type `screenshot` is re-serialised without its base64 payload; a
dict whose `files` entry is a list longer than ten keeps the first ten plus
a note; everything else (including unparsable input) is truncated. -/
def summarize_tool_result (result : String) (max_chars : ℕ := 500) : String :=
  match jsonLoads result with
  | some (.obj fields) =>
      let isScreenshot : Bool :=
        match objGet fields ("type") with
        | some (.str s) => decide (s = "screenshot")
        | _ => false
      if isScreenshot then
        Json.dumps (.obj
          [("type", .str ("screenshot")),
           ("path", objGetD fields ("path") Json.null),
           ("dimensions", .str
             (pyStrOfJson (objGetD fields ("width") (.str ("?"))) ++ "x" ++
              pyStrOfJson (objGetD fields ("height") (.str ("?")))))])
      else
        match objGet fields ("files") with
        | some (.arr files) =>
            if 10 < files.length then
              Json.dumps (.obj
                [("files", .arr (files.take 10)),
                 ("note", .str
                   ("...and " ++ toString (files.length - 10) ++ " more files"))])
            else truncate_text result max_chars
        | _ => truncate_text result max_chars
  | _ => truncate_text result max_chars

/-! ## `src/token_optimizer/compressor.py` — per-message compression -/

/-- The compression config dict assembled in `TokenOptimizer.optimize`. -/
structure CompressConfig where
  compress_whitespace : Bool
  max_tool_result_chars : ℕ
  summarize_tool_results : Bool
  remove_base64 : Bool
deriving DecidableEq, Repr

/-- Embedding of `compress_message` (`compressor.py`).  String content is
whitespace-compressed, stripped of base64 payloads, and (for tool messages,
when `max_tool_result_chars` is truthy, i.e. nonzero) summarised or
truncated; list content has its text parts whitespace-compressed.  The
Python code rebuilds the message only when the content changed, which is
value-equal to always rebuilding. -/
def compress_message (message : Message) (config : CompressConfig) : Message :=
  match message.content with
  | .str content =>
      let content :=
        if config.compress_whitespace then compress_whitespace content else content
      let content :=
        if config.remove_base64 then (remove_base64_from_text content).1 else content
      let content :=
        if message.role = .tool ∧ config.max_tool_result_chars ≠ 0 then
          if config.summarize_tool_results then
            summarize_tool_result content config.max_tool_result_chars
          else
            truncate_text content config.max_tool_result_chars
        else content
      { message with content := .str content }
  | .parts l =>
      let new_parts := l.map (fun part =>
        match part with
        | .text s =>
            .text (if config.compress_whitespace then compress_whitespace s else s)
        | p => p)
      { message with content := .parts new_parts }

/-- Embedding of `compress_messages`. -/
def compress_messages (messages : List Message) (config : CompressConfig) :
    List Message :=
  messages.map (fun msg => compress_message msg config)

/-! ## `src/token_optimizer/pruner.py` -/

/-- Characteristic predicate of the set built by
`identify_essential_messages` (`pruner.py`): index `i` is essential iff its
message is a system message, or lies in the final `keep_last` positions, or
is an AI message with tool calls, or is a tool message within the window
`(i0, i0 + len(tool_calls) + 1)` after such an AI message at `i0`.  The
Python function materialises this as a `set`; only membership in it is ever
used.  The `n - keep_last` bound uses truncated subtraction exactly as the
Python `i >= n - keep_last` behaves for `n ≤ keep_last` (every index
qualifies). -/
def essentialIdx (messages : List Message) (keep_last : ℕ) (i : ℕ) : Bool :=
  let n := messages.length
  match messages.get? i with
  | none => false
  | some m =>
      decide (m.role = .system) || decide (n - keep_last ≤ i) ||
      (decide (m.role = .ai) && decide (m.tool_calls ≠ [])) ||
      (decide (m.role = .tool) &&
        (List.range i).any (fun i0 =>
          match messages.get? i0 with
          | some m0 =>
              decide (m0.role = .ai) && decide (m0.tool_calls ≠ []) &&
                decide (i < i0 + m0.tool_calls.length + 1)
          | none => false))

/-- Embedding of `prune_oldest_messages` (`pruner.py`): drop the oldest
non-essential messages (in index order) until the target count is reached.
Note the source hard-codes `keep_last = 4` here: `identify_essential_messages`
is called without the `keep_last` argument. -/
def prune_oldest_messages (messages : List Message) (target_count : ℕ)
    (preserve_essential : Bool := true) : List Message × ℕ :=
  if messages.length ≤ target_count then (messages, 0)
  else
    let ess : ℕ → Bool :=
      if preserve_essential then essentialIdx messages 4 else fun _ => false
    let prunable := (List.range messages.length).filter (fun i => !(ess i))
    let to_remove := messages.length - target_count
    let remove_indices := prunable.take to_remove
    let result :=
      (messages.enum.filter (fun p => !(remove_indices.contains p.1))).map Prod.snd
    (result, remove_indices.length)

/-- Does this message carry an image part, in the sense of the scan in
`prune_images`: a `HumanMessage` with list content containing an
`image_url` part. -/
def msgHasImagePart (m : Message) : Bool :=
  decide (m.role = .human) &&
    (match m.content with
     | .parts l => l.any (fun p => match p with | .image_url _ => true | _ => false)
     | _ => false)

/-- Replace every image part of a content list by the placeholder text
part, counting the replacements (inner loop of `prune_images`). -/
def stripImagesFromParts : List ContentPart → List ContentPart × ℕ
  | [] => ([], 0)
  | .image_url _ :: rest =>
      let (r, n) := stripImagesFromParts rest
      (.text ("<image removed for token optimization>") :: r, n + 1)
  | p :: rest =>
      let (r, n) := stripImagesFromParts rest
      (p :: r, n)

/-- Embedding of `prune_images` (`pruner.py`): keep only the most recent
`max_images` image-bearing messages, replacing older images by placeholder
text inside a fresh `HumanMessage`.  `image_indices[:-max_images]` is the
empty slice when `max_images = 0` (Python negative-slice semantics). -/
def prune_images (messages : List Message) (max_images : ℕ := 3) :
    List Message × ℕ :=
  let image_indices := (messages.enum.filter (fun p => msgHasImagePart p.2)).map (fun p => p.1)
  if image_indices.length ≤ max_images then (messages, 0)
  else
    let indices_to_strip :=
      if max_images = 0 then []
      else image_indices.take (image_indices.length - max_images)
    messages.enum.foldl
      (fun (acc : List Message × ℕ) p =>
        if indices_to_strip.contains p.1 then
          match p.2.content with
          | .parts l =>
              let (l2, stripped) := stripImagesFromParts l
              (acc.1 ++ [{ role := .human, content := .parts l2 }], acc.2 + stripped)
          | c => (acc.1 ++ [{ role := .human, content := c }], acc.2)
        else (acc.1 ++ [p.2], acc.2))
      ([], 0)

/-- The duplicate-detection key of `find_duplicate_content`: length of the
stripped content, its first 50 and its last 50 characters. -/
def dupKey (c : String) : ℕ × String × String :=
  (c.length, c.take 50, pyTakeLast c 50)

/-- Fold step of `find_duplicate_content`: carry the list of seen keys and
the duplicate indices found so far. -/
def dupScan (seen : List (ℕ × String × String)) (dups : List ℕ) :
    List (ℕ × Message) → List ℕ
  | [] => dups
  | (i, msg) :: rest =>
      match msg.content with
      | .str s =>
          let content := pyStripStr s
          if content.length < 20 then dupScan seen dups rest
          else
            let key := dupKey content
            if seen.contains key then dupScan seen (dups ++ [i]) rest
            else dupScan (seen ++ [key]) dups rest
      | _ => dupScan seen dups rest

/-- Embedding of `find_duplicate_content` (`pruner.py`): indices of messages
whose (stripped, length ≥ 20) string content repeats the key of an earlier
message.  The `threshold` parameter of the source is unused there and
omitted here. -/
def find_duplicate_content (messages : List Message) : List ℕ :=
  dupScan [] [] messages.enum

/-- Embedding of `prune_duplicates`. -/
def prune_duplicates (messages : List Message) : List Message × ℕ :=
  let duplicate_indices := find_duplicate_content messages
  let result :=
    (messages.enum.filter (fun p => !(duplicate_indices.contains p.1))).map Prod.snd
  (result, duplicate_indices.length)

/-! ## `src/token_optimizer/optimizer.py` -/

/-- The message-count reduction computed in stage 4 of `optimize`:
`int((current_tokens - target) / avg_per_msg)` with `avg_per_msg =
current_tokens / len(optimized)` (or `100` for an empty list).  The float
quotient is modelled by the exact rational floor; the two agree except at
double-rounding boundaries, which no claim depends on. -/
def msgsToRemoveEstimate (current_tokens target len : ℕ) : ℕ :=
  if len = 0 then (current_tokens - target) / 100
  else ((current_tokens - target) * len) / current_tokens

/-- Embedding of `TokenOptimizer` (its construction-time config). -/
structure TokenOptimizer where
  config : OptimizationConfig := {}
deriving DecidableEq, Repr

/-- Embedding of `TokenOptimizer.optimize` (`optimizer.py`).  `target_tokens
or self.config.target_tokens` treats an explicit `0` as falsy; an explicit
strategy always wins (enum members are truthy).  The stages are:
compression, duplicate removal, image pruning, and (for AGGRESSIVE/ADAPTIVE
over target) oldest-message eviction. -/
def TokenOptimizer.optimize (self : TokenOptimizer) (messages : List Message)
    (target_tokens : Option ℕ := none)
    (strategy : Option OptimizationStrategy := none) :
    List Message × OptimizationResult :=
  let target :=
    match target_tokens with
    | none => self.config.target_tokens
    | some t => if t = 0 then self.config.target_tokens else t
  let strat :=
    match strategy with
    | none => self.config.strategy
    | some s => s
  let config := self.config.for_strategy strat
  let original_tokens := count_messages_tokens messages
  if strat = .ADAPTIVE ∧ original_tokens ≤ target then
    (messages,
     { original_tokens := original_tokens, optimized_tokens := original_tokens,
       tokens_saved := 0, messages_pruned := 0, images_removed := 0,
       strategy_used := strat })
  else if strat = .NONE then
    (messages,
     { original_tokens := original_tokens, optimized_tokens := original_tokens,
       tokens_saved := 0, messages_pruned := 0, images_removed := 0,
       strategy_used := strat })
  else
    let compress_config : CompressConfig :=
      { compress_whitespace := config.compress_whitespace
        max_tool_result_chars := config.max_tool_result_chars
        summarize_tool_results := config.summarize_tool_results
        remove_base64 := decide (strat = .AGGRESSIVE) }
    let optimized := compress_messages messages compress_config
    let (optimized, messages_pruned) :=
      if config.remove_duplicates then prune_duplicates optimized
      else (optimized, 0)
    let (optimized, images_removed) :=
      if config.strip_old_images then prune_images optimized config.max_images
      else (optimized, 0)
    let current_tokens := count_messages_tokens optimized
    let (optimized, messages_pruned) :=
      if target < current_tokens ∧ (strat = .AGGRESSIVE ∨ strat = .ADAPTIVE) then
        let msgs_to_remove :=
          msgsToRemoveEstimate current_tokens target optimized.length + 1
        let target_count :=
          max config.min_messages_keep (optimized.length - msgs_to_remove)
        let (pruned_messages, pruned) :=
          prune_oldest_messages optimized target_count true
        (pruned_messages, messages_pruned + pruned)
      else (optimized, messages_pruned)
    let optimized_tokens := count_messages_tokens optimized
    (optimized,
     { original_tokens := original_tokens, optimized_tokens := optimized_tokens,
       tokens_saved := (original_tokens : ℤ) - (optimized_tokens : ℤ),
       messages_pruned := messages_pruned, images_removed := images_removed,
       strategy_used := strat })

/-! # Theorems for the specification claims -/

/-! ## C5 — `prune_cold` characterisation -/

/-- C5: `prune_cold(heat_threshold, max_age_hours)` returns exactly the set
of cubes whose heat score is strictly below the threshold AND whose
`last_access` is older than `max_age_hours` (the embedding returns the
candidates without touching any tier state, mirroring the read-only Python
method); in particular a cube with `access_count = 0` last accessed 48 hours
ago qualifies under `prune_cold(0.1, 24)`, while a cube with
`access_count = 10` accessed 5 minutes ago does not. -/
theorem prune_cold_characterisation :
    (∀ (w : WarmTier) (threshold max_age_hours now : ℚ) (c : MemoryCube),
        c ∈ w.prune_cold threshold max_age_hours now ↔
          c ∈ w.get_all ∧ c.heat_score now < threshold ∧
            c.last_access < now - max_age_hours * 3600) ∧
    ({ id := "stale", content := "s", timestamp := 0, embedding := [1],
       tier := .WARM, access_count := 0,
       last_access := 200000 - 48 * 3600 } : MemoryCube) ∈
      WarmTier.prune_cold
        { index := { items :=
            [{ id := "stale", content := "s", timestamp := 0, embedding := [1],
               tier := .WARM, access_count := 0, last_access := 200000 - 48 * 3600 },
             { id := "fresh", content := "f", timestamp := 0, embedding := [1],
               tier := .WARM, access_count := 10, last_access := 200000 - 300 }] } }
        (1/10) 24 200000 ∧
    ({ id := "fresh", content := "f", timestamp := 0, embedding := [1],
       tier := .WARM, access_count := 10,
       last_access := 200000 - 300 } : MemoryCube) ∉
      WarmTier.prune_cold
        { index := { items :=
            [{ id := "stale", content := "s", timestamp := 0, embedding := [1],
               tier := .WARM, access_count := 0, last_access := 200000 - 48 * 3600 },
             { id := "fresh", content := "f", timestamp := 0, embedding := [1],
               tier := .WARM, access_count := 10, last_access := 200000 - 300 }] } }
        (1/10) 24 200000 := by
  have hchar : ∀ (w : WarmTier) (threshold max_age_hours now : ℚ) (c : MemoryCube),
      c ∈ w.prune_cold threshold max_age_hours now ↔
        c ∈ w.get_all ∧ c.heat_score now < threshold ∧
          c.last_access < now - max_age_hours * 3600 := by
    intro w threshold max_age_hours now c
    simp [WarmTier.prune_cold, WarmTier.get_all, VectorIndex.get_all,
      List.mem_filter, and_assoc]
  refine ⟨hchar, ?_, ?_⟩
  · rw [hchar]
    refine ⟨by simp [WarmTier.get_all, VectorIndex.get_all], ?_, by norm_num⟩
    norm_num [MemoryCube.heat_score]
  · rw [hchar]
    rintro ⟨-, hheat, -⟩
    revert hheat
    norm_num [MemoryCube.heat_score]

/-! ## C6 — heat score shape and monotonicity -/

/-- C6: `heat_score()` is a pure function of `access_count` and
`last_access` (and the sampled clock), equal to
`access_count * (1 / (1 + hours_since_last_access))`; it is `0` whenever
`access_count = 0`, and for a fixed positive `access_count` it strictly
decreases as the elapsed time since `last_access` grows. -/
theorem heat_score_props :
    (∀ (c1 c2 : MemoryCube) (now : ℚ), c1.access_count = c2.access_count →
        c1.last_access = c2.last_access →
        c1.heat_score now = c2.heat_score now) ∧
    (∀ (c : MemoryCube) (now : ℚ), c.last_access ≤ now →
        c.heat_score now =
          (c.access_count : ℚ) * (1 / (1 + (now - c.last_access) / 3600))) ∧
    (∀ (c : MemoryCube) (now : ℚ), c.access_count = 0 → c.heat_score now = 0) ∧
    (∀ (c : MemoryCube) (now1 now2 : ℚ), 0 < c.access_count →
        c.last_access ≤ now1 → now1 < now2 →
        c.heat_score now2 < c.heat_score now1) := by
  refine ⟨?_, ?_, ?_, ?_⟩
  · intro c1 c2 now hcount hlast
    simp [MemoryCube.heat_score, hcount, hlast]
  · intro c now _
    by_cases hc : c.access_count = 0
    · simp [MemoryCube.heat_score, hc]
    · simp [MemoryCube.heat_score, hc]
  · intro c now hc
    simp [MemoryCube.heat_score, hc]
  · intro c now1 now2 hc h1 h12
    have hc0 : ¬ c.access_count = 0 := Nat.pos_iff_ne_zero.mp hc
    simp only [MemoryCube.heat_score, if_neg hc0]
    have hq1 : (0 : ℚ) ≤ (now1 - c.last_access) / 3600 :=
      div_nonneg (by linarith) (by norm_num)
    have hd1 : (0 : ℚ) < 1 + (now1 - c.last_access) / 3600 := by linarith
    have hlt : (now1 - c.last_access) / 3600 < (now2 - c.last_access) / 3600 := by
      apply div_lt_div_of_pos_right ?_ (by norm_num)
      linarith
    have hd12 : 1 + (now1 - c.last_access) / 3600
        < 1 + (now2 - c.last_access) / 3600 := by linarith
    have hd2 : (0 : ℚ) < 1 + (now2 - c.last_access) / 3600 := lt_trans hd1 hd12
    have hinv : 1 / (1 + (now2 - c.last_access) / 3600)
        < 1 / (1 + (now1 - c.last_access) / 3600) :=
      one_div_lt_one_div_of_lt hd1 hd12
    have hcpos : (0 : ℚ) < (c.access_count : ℚ) := by
      exact_mod_cast hc
    exact mul_lt_mul_of_pos_left hinv hcpos

/-- Witness for C6 at a concrete cube: heat strictly decays from one hour
to two hours after the last access. -/
theorem heat_score_props_witness :
    ({ id := "w", content := "", timestamp := 0, embedding := [],
       tier := .WARM, access_count := 1, last_access := 0 } : MemoryCube).heat_score 7200 <
    ({ id := "w", content := "", timestamp := 0, embedding := [],
       tier := .WARM, access_count := 1, last_access := 0 } : MemoryCube).heat_score 3600 :=
  heat_score_props.2.2.2
    { id := "w", content := "", timestamp := 0, embedding := [],
      tier := .WARM, access_count := 1, last_access := 0 }
    3600 7200 (by decide) (by decide) (by decide)

/-! ## C7 — edge-triggered summary consumption -/

/-- Helper invariant for C7: along any event trace, the last consumed
summary followed by the deliveries forms a chain of pairwise-adjacent
distinct strings (the next delivery always differs from the previously
recorded one). -/
theorem hotDeliveries_chain_aux (evs : List HotEvent) :
    ∀ st : HotTierState,
      List.Chain' (fun a b => a ≠ b) (st.last_summary :: hotDeliveries st evs) := by
  induction evs with
  | nil => intro st; simp [hotDeliveries]
  | cons e rest ih =>
      intro st
      cases e with
      | set_summary s =>
          simpa [hotDeliveries, hotStep] using ih { st with summary := s }
      | consume =>
          by_cases h : st.summary ≠ "" ∧ st.summary ≠ st.last_summary
          · simp only [hotDeliveries, hotStep, HotTierState.consume_summary,
              if_pos h]
            rw [List.chain'_cons]
            refine ⟨fun hh => h.2 hh.symm, ?_⟩
            simpa using ih { st with last_summary := st.summary }
          · simp only [hotDeliveries, hotStep, HotTierState.consume_summary,
              if_neg h]
            exact ih st

/-- C7: `consume_summary()` is edge-triggered: it returns the current
summary exactly when that summary is non-empty and differs from the last
delivered one (recording it); an immediate second `consume_summary()`
always returns nothing; and along every trace of summary updates and
consumptions the delivered summaries never repeat twice in a row. -/
theorem consume_summary_edge_triggered :
    (∀ (s : HotTierState) (t : String),
        (s.consume_summary).1 = some t ↔
          t = s.summary ∧ s.summary ≠ "" ∧ s.summary ≠ s.last_summary) ∧
    (∀ s : HotTierState, (((s.consume_summary).2).consume_summary).1 = none) ∧
    (∀ (st : HotTierState) (evs : List HotEvent),
        List.Chain' (fun a b => a ≠ b) (hotDeliveries st evs)) := by
  refine ⟨?_, ?_, ?_⟩
  · intro s t
    by_cases h : s.summary ≠ "" ∧ s.summary ≠ s.last_summary
    · simp [HotTierState.consume_summary, if_pos h, h, eq_comm]
    · simp only [HotTierState.consume_summary, if_neg h]
      constructor
      · intro hfalse; cases hfalse
      · rintro ⟨-, h1, h2⟩; exact absurd ⟨h1, h2⟩ h
  · intro s
    by_cases h : s.summary ≠ "" ∧ s.summary ≠ s.last_summary
    · simp [HotTierState.consume_summary, if_pos h]
    · simp [HotTierState.consume_summary, if_neg h]
  · intro st evs
    exact (hotDeliveries_chain_aux evs st).tail

/-! ## C3 — optimizer token accounting -/

/-- C3 (amended): under strategy NONE, `optimize` returns the message list
unchanged with `optimized_tokens == original_tokens`, `tokens_saved == 0`
and `messages_pruned == 0`, for every optimizer config, input list and
target; the universal inequality `optimized_tokens ≤ original_tokens` of
the original claim fails for the other strategies (see the
counterexample). -/
theorem optimize_none_identity (self : TokenOptimizer) (messages : List Message)
    (target_tokens : Option ℕ) :
    self.optimize messages target_tokens (some .NONE) =
      (messages,
       { original_tokens := count_messages_tokens messages,
         optimized_tokens := count_messages_tokens messages,
         tokens_saved := 0, messages_pruned := 0, images_removed := 0,
         strategy_used := .NONE }) := by
  rfl

/-- Witness for C3 (amended) at a concrete input: a two-message list under
strategy NONE with an explicit target comes back unchanged with equal token
counts. -/
theorem optimize_none_identity_witness :
    TokenOptimizer.optimize {}
        [{ role := .human, content := .str ("hello") },
         { role := .ai, content := .str ("world") }] (some 100) (some .NONE) =
      ([{ role := .human, content := .str ("hello") },
        { role := .ai, content := .str ("world") }],
       { original_tokens := 10, optimized_tokens := 10, tokens_saved := 0,
         messages_pruned := 0, images_removed := 0, strategy_used := .NONE }) := by
  have h := optimize_none_identity {}
    [{ role := .human, content := .str ("hello") },
     { role := .ai, content := .str ("world") }] (some 100)
  simpa using h

/-- Counterexample for C3: under strategy AGGRESSIVE, a list of two
`HumanMessage`s each holding a bare `{"type": "image_url"}` part (counted
as zero tokens because the url is missing) is *expanded* by image pruning,
which replaces the older image with a 38-character placeholder text: the
original 8 tokens become 17, so `optimized_tokens ≤ original_tokens` is
violated and `tokens_saved` is negative. -/
theorem optimize_can_increase_tokens :
    (TokenOptimizer.optimize {}
        [{ role := .human, content := .parts [.image_url ("")] },
         { role := .human, content := .parts [.image_url ("")] }]
        none (some .AGGRESSIVE)).2 =
      { original_tokens := 8, optimized_tokens := 17, tokens_saved := -9,
        messages_pruned := 0, images_removed := 1,
        strategy_used := .AGGRESSIVE } ∧
    ¬ ((TokenOptimizer.optimize {}
        [{ role := .human, content := .parts [.image_url ("")] },
         { role := .human, content := .parts [.image_url ("")] }]
        none (some .AGGRESSIVE)).2.optimized_tokens ≤
       (TokenOptimizer.optimize {}
        [{ role := .human, content := .parts [.image_url ("")] },
         { role := .human, content := .parts [.image_url ("")] }]
        none (some .AGGRESSIVE)).2.original_tokens) := by
  constructor <;> decide

/-! ## C4 — eviction-stage guarantees and the final-four counterexample -/

/-- Counterexample for C4: with strategy AGGRESSIVE the duplicate-removal
stage (which runs before eviction and ignores the `min_messages_keep`
protection) deletes the fifth message because it repeats the first, so the
final four optimized messages differ from the final four original
four. -/
theorem optimize_final_four_counterexample :
    ((TokenOptimizer.optimize {}
        [{ role := .human, content := .str ("abcdefghijklmnopqrstuvwxyz") },
         { role := .human, content := .str ("bbbb") },
         { role := .human, content := .str ("cccc") },
         { role := .human, content := .str ("dddd") },
         { role := .human, content := .str ("abcdefghijklmnopqrstuvwxyz") }]
        none (some .AGGRESSIVE)).1.length = 4) ∧
    ((TokenOptimizer.optimize {}
        [{ role := .human, content := .str ("abcdefghijklmnopqrstuvwxyz") },
         { role := .human, content := .str ("bbbb") },
         { role := .human, content := .str ("cccc") },
         { role := .human, content := .str ("dddd") },
         { role := .human, content := .str ("abcdefghijklmnopqrstuvwxyz") }]
        none (some .AGGRESSIVE)).1 ≠
      [{ role := .human, content := .str ("bbbb") },
       { role := .human, content := .str ("cccc") },
       { role := .human, content := .str ("dddd") },
       { role := .human, content := .str ("abcdefghijklmnopqrstuvwxyz") }]) := by
  constructor <;> decide

/-! ## C1 — migration transactionality -/

/-- When the cube ids are distinct, removing the first cube with a given id
is the same as filtering that id out. -/
theorem removeFirstById_eq_filter (l : List MemoryCube) (i : String)
    (h : (l.map MemoryCube.id).Nodup) :
    removeFirstById l i = l.filter (fun c => !(decide (c.id = i))) := by
  induction l with
  | nil => rfl
  | cons c rest ih =>
      simp only [List.map_cons, List.nodup_cons] at h
      by_cases hc : c.id = i
      · have hrest : ∀ x ∈ rest, (!(decide (x.id = i))) = true := by
          intro x hx
          simp only [Bool.not_eq_true', decide_eq_false_iff_not]
          intro hxi
          exact h.1 (List.mem_map.mpr ⟨x, hx, by rw [hxi, hc]⟩)
        have h1 : removeFirstById (c :: rest) i = rest := by
          simp [removeFirstById, hc]
        have h2 : List.filter (fun x => !(decide (x.id = i))) (c :: rest) =
            List.filter (fun x => !(decide (x.id = i))) rest := by
          simp [List.filter_cons, hc]
        rw [h1, h2, List.filter_eq_self.mpr hrest]
      · have h1 : removeFirstById (c :: rest) i = c :: removeFirstById rest i := by
          simp [removeFirstById, hc]
        have h2 : List.filter (fun x => !(decide (x.id = i))) (c :: rest) =
            c :: List.filter (fun x => !(decide (x.id = i))) rest := by
          simp [List.filter_cons, hc]
        rw [h1, h2, ih h.2]

/-- Filtering preserves distinctness of the ids. -/
theorem ids_nodup_filter {l : List MemoryCube} (p : MemoryCube → Bool)
    (h : (l.map MemoryCube.id).Nodup) :
    ((l.filter p).map MemoryCube.id).Nodup :=
  List.Nodup.sublist (List.Sublist.map MemoryCube.id (List.filter_sublist l)) h

/-- Removing a batch of ids (as `archive_cold_memories` does in its loop)
filters all of them out, given distinct ids. -/
theorem foldl_removeFirstById_eq_filter (cs : List String) :
    ∀ (l : List MemoryCube), (l.map MemoryCube.id).Nodup →
      cs.foldl (fun acc i => removeFirstById acc i) l =
        l.filter (fun c => !(cs.contains c.id)) := by
  induction cs with
  | nil =>
      intro l _
      simp
  | cons i cs ih =>
      intro l h
      simp only [List.foldl_cons]
      rw [removeFirstById_eq_filter l i h,
        ih _ (ids_nodup_filter _ h), List.filter_filter]
      apply List.filter_congr
      intro x _
      by_cases hxi : x.id = i <;> cases hb : cs.contains x.id <;>
        simp [List.contains_cons, hxi, hb]
      · intro hmem2
        have hcontr := List.elem_eq_true_of_mem hmem2
        have hb2 : List.elem x.id cs = false := hb
        rw [hcontr] at hb2
        cases hb2
      · exact List.elem_iff.mp hb

/-- The `WarmTier`-level removal loop of `archive_cold_memories` acts on the
underlying item list as the id-wise removal fold. -/
theorem warm_foldl_items (cs : List MemoryCube) :
    ∀ (w : WarmTier),
      (cs.foldl (fun w m => w.remove m.id) w).index.items =
        (cs.map MemoryCube.id).foldl (fun acc i => removeFirstById acc i)
          w.index.items := by
  induction cs with
  | nil => intro w; rfl
  | cons m cs ih =>
      intro w
      simp only [List.foldl_cons, List.map_cons, ih]
      rfl

/-- C1: migration is transactional.  If the warm-tier ids are distinct,
every candidate returned by `prune_cold` is, after
`archive_cold_memories()`, absent from the Warm `get_all()` and present in
the Cold `get_all()` with its tier set to COLD.  If the cold-tier ids are
distinct, every cube stored in Cold is, after `rehydrate_memory(id)`,
absent from the Cold `get_all()` and present in the Warm `get_all()` with its
tier set to WARM. -/
theorem migration_transactionality :
    (∀ (os : AdvancedMemoryOS) (now : ℚ) (c : MemoryCube),
        (os.warm.get_all.map MemoryCube.id).Nodup →
        c ∈ os.warm.prune_cold (1/10) 24 now →
          c.id ∉ ((os.archive_cold_memories now).warm.get_all.map MemoryCube.id) ∧
          ({ c with tier := MemoryTier.COLD } : MemoryCube) ∈
            (os.archive_cold_memories now).cold.get_all ∧
          ({ c with tier := MemoryTier.COLD } : MemoryCube).tier = MemoryTier.COLD) ∧
    (∀ (os : AdvancedMemoryOS) (c : MemoryCube),
        (os.cold.get_all.map MemoryCube.id).Nodup →
        c ∈ os.cold.get_all →
          c.id ∉ (((os.rehydrate_memory c.id).1).cold.get_all.map MemoryCube.id) ∧
          ({ c with tier := MemoryTier.WARM } : MemoryCube) ∈
            ((os.rehydrate_memory c.id).1).warm.get_all ∧
          ({ c with tier := MemoryTier.WARM } : MemoryCube).tier = MemoryTier.WARM) := by
  constructor
  · intro os now c hnd hc
    have hnd2 : ((os.warm.index.items.map MemoryCube.id)).Nodup := hnd
    have hne : (os.warm.prune_cold (1/10) 24 now).isEmpty = false := by
      cases hcand : os.warm.prune_cold (1/10) 24 now with
      | nil => rw [hcand] at hc; cases hc
      | cons a l => rfl
    have harch : os.archive_cold_memories now =
        { warm := (os.warm.prune_cold (1/10) 24 now).foldl
            (fun w m => w.remove m.id) os.warm
          cold := os.cold.save (os.warm.prune_cold (1/10) 24 now) } := by
      unfold AdvancedMemoryOS.archive_cold_memories
      simp only [hne, Bool.false_eq_true, if_false]
    rw [harch]
    refine ⟨?_, ?_, rfl⟩
    · have hitems : ((os.warm.prune_cold (1/10) 24 now).foldl
          (fun w m => w.remove m.id) os.warm).index.items =
          os.warm.index.items.filter
            (fun x => !(((os.warm.prune_cold (1/10) 24 now).map MemoryCube.id).contains x.id)) := by
        rw [warm_foldl_items]
        exact foldl_removeFirstById_eq_filter _ _ hnd2
      intro hmem
      simp only [WarmTier.get_all, VectorIndex.get_all, hitems, List.mem_map,
        List.mem_filter] at hmem
      obtain ⟨x, ⟨-, hxpred⟩, hxid⟩ := hmem
      have hcid : c.id ∈ (os.warm.prune_cold (1/10) 24 now).map MemoryCube.id :=
        List.mem_map.mpr ⟨c, hc, rfl⟩
      have hcontains :
          ((os.warm.prune_cold (1/10) 24 now).map MemoryCube.id).contains x.id = true := by
        rw [hxid]
        exact List.elem_eq_true_of_mem hcid
      rw [hcontains] at hxpred
      cases hxpred
    · simp only [ColdTier.save, ColdTier.get_all]
      exact List.mem_append_right _ (List.mem_map.mpr ⟨c, hc, rfl⟩)
  · intro os c hnd hcm
    have hnd2 : ((os.cold.archive.map MemoryCube.id)).Nodup := hnd
    have hcm2 : c ∈ os.cold.archive := hcm
    have hfind : os.cold.rehydrate c.id = some c := by
      cases hfind : os.cold.rehydrate c.id with
      | none =>
          exfalso
          unfold ColdTier.rehydrate at hfind
          rw [List.find?_eq_none] at hfind
          exact absurd (by simp : decide (c.id = c.id) = true) (hfind c hcm2)
      | some y =>
          unfold ColdTier.rehydrate at hfind
          have hy : y ∈ os.cold.archive := List.mem_of_find?_eq_some hfind
          have hyid : y.id = c.id := by
            have := List.find?_some hfind
            simpa using this
          have : y = c := List.inj_on_of_nodup_map hnd2 hy hcm2 hyid
          rw [this]
    have hrehy : os.rehydrate_memory c.id =
        ({ warm := { index := os.warm.index.add { c with tier := MemoryTier.WARM } }
           cold := os.cold.remove c.id },
         some { c with tier := MemoryTier.WARM }) := by
      unfold AdvancedMemoryOS.rehydrate_memory
      rw [hfind]
    rw [hrehy]
    refine ⟨?_, ?_, rfl⟩
    · have hrem : (os.cold.remove c.id).archive =
          os.cold.archive.filter (fun x => !(decide (x.id = c.id))) := by
        unfold ColdTier.remove
        rw [removeFirstById_eq_filter os.cold.archive c.id hnd2]
      intro hmem
      simp only [ColdTier.get_all, ColdTier.remove] at hmem
      rw [removeFirstById_eq_filter os.cold.archive c.id hnd2] at hmem
      simp only [List.mem_map, List.mem_filter] at hmem
      obtain ⟨x, ⟨-, hxpred⟩, hxid⟩ := hmem
      simp only [Bool.not_eq_true', decide_eq_false_iff_not] at hxpred
      exact hxpred hxid
    · simp [WarmTier.get_all, VectorIndex.get_all, VectorIndex.add]

/-- Witness for C1 at concrete states: a never-accessed cube last touched at
time 0 is archived at time 200000 (leaving warm, entering cold as COLD), and
a cold cube is rehydrated (leaving cold, entering warm as WARM). -/
theorem migration_transactionality_witness :
    (({ id := "a", content := "m", timestamp := 0, embedding := [1],
        tier := .WARM, access_count := 0, last_access := 0 } : MemoryCube).id ∉
        ((AdvancedMemoryOS.archive_cold_memories
            { warm := { index := { items :=
                [{ id := "a", content := "m", timestamp := 0, embedding := [1],
                   tier := .WARM, access_count := 0, last_access := 0 }] } }
              cold := { archive := [] } } 200000).warm.get_all.map MemoryCube.id) ∧
      ({ ({ id := "a", content := "m", timestamp := 0, embedding := [1],
            tier := .WARM, access_count := 0, last_access := 0 } : MemoryCube)
          with tier := MemoryTier.COLD } : MemoryCube) ∈
        (AdvancedMemoryOS.archive_cold_memories
            { warm := { index := { items :=
                [{ id := "a", content := "m", timestamp := 0, embedding := [1],
                   tier := .WARM, access_count := 0, last_access := 0 }] } }
              cold := { archive := [] } } 200000).cold.get_all ∧
      ({ ({ id := "a", content := "m", timestamp := 0, embedding := [1],
            tier := .WARM, access_count := 0, last_access := 0 } : MemoryCube)
          with tier := MemoryTier.COLD } : MemoryCube).tier = MemoryTier.COLD) ∧
    (({ id := "b", content := "n", timestamp := 0, embedding := [2],
        tier := .COLD, access_count := 0, last_access := 0 } : MemoryCube).id ∉
        (((AdvancedMemoryOS.rehydrate_memory
            { warm := { index := { items := [] } }
              cold := { archive :=
                [{ id := "b", content := "n", timestamp := 0, embedding := [2],
                   tier := .COLD, access_count := 0, last_access := 0 }] } }
            ({ id := "b", content := "n", timestamp := 0, embedding := [2],
               tier := .COLD, access_count := 0,
               last_access := 0 } : MemoryCube).id).1).cold.get_all.map MemoryCube.id) ∧
      ({ ({ id := "b", content := "n", timestamp := 0, embedding := [2],
            tier := .COLD, access_count := 0, last_access := 0 } : MemoryCube)
          with tier := MemoryTier.WARM } : MemoryCube) ∈
        ((AdvancedMemoryOS.rehydrate_memory
            { warm := { index := { items := [] } }
              cold := { archive :=
                [{ id := "b", content := "n", timestamp := 0, embedding := [2],
                   tier := .COLD, access_count := 0, last_access := 0 }] } }
            ({ id := "b", content := "n", timestamp := 0, embedding := [2],
               tier := .COLD, access_count := 0,
               last_access := 0 } : MemoryCube).id).1).warm.get_all ∧
      ({ ({ id := "b", content := "n", timestamp := 0, embedding := [2],
            tier := .COLD, access_count := 0, last_access := 0 } : MemoryCube)
          with tier := MemoryTier.WARM } : MemoryCube).tier = MemoryTier.WARM) :=
  And.intro
    (migration_transactionality.1
      { warm := { index := { items :=
          [{ id := "a", content := "m", timestamp := 0, embedding := [1],
             tier := .WARM, access_count := 0, last_access := 0 }] } }
        cold := { archive := [] } }
      200000
      { id := "a", content := "m", timestamp := 0, embedding := [1],
        tier := .WARM, access_count := 0, last_access := 0 }
      (by simp [WarmTier.get_all, VectorIndex.get_all])
      (by
        simp only [WarmTier.prune_cold, WarmTier.get_all, VectorIndex.get_all,
          MemoryCube.heat_score, List.filter]
        norm_num))
    (migration_transactionality.2
      { warm := { index := { items := [] } }
        cold := { archive :=
          [{ id := "b", content := "n", timestamp := 0, embedding := [2],
             tier := .COLD, access_count := 0, last_access := 0 }] } }
      { id := "b", content := "n", timestamp := 0, embedding := [2],
        tier := .COLD, access_count := 0, last_access := 0 }
      (by simp [ColdTier.get_all])
      (by simp [ColdTier.get_all]))

/-! ### Essential-index facts for the eviction stage -/

/-- A system message is essential. -/
theorem essentialIdx_of_system (messages : List Message) (keep_last i : ℕ)
    (h : i < messages.length) (hrole : (messages.get ⟨i, h⟩).role = .system) :
    essentialIdx messages keep_last i = true := by
  have hrole2 : messages[i].role = .system := by
    simpa [List.get_eq_getElem] using hrole
  unfold essentialIdx
  rw [List.get?_eq_get h]
  simp [List.get_eq_getElem, hrole2]

/-- An index within the final `keep_last` positions is essential. -/
theorem essentialIdx_of_recent (messages : List Message) (keep_last i : ℕ)
    (h : i < messages.length) (hi : messages.length - keep_last ≤ i) :
    essentialIdx messages keep_last i = true := by
  have hi2 : messages.length ≤ i + keep_last := by omega
  unfold essentialIdx
  rw [List.get?_eq_get h]
  simp [hi2]

/-- An AI message with tool calls is essential. -/
theorem essentialIdx_of_tool_call (messages : List Message) (keep_last i : ℕ)
    (h : i < messages.length) (hrole : (messages.get ⟨i, h⟩).role = .ai)
    (hcalls : (messages.get ⟨i, h⟩).tool_calls ≠ []) :
    essentialIdx messages keep_last i = true := by
  have hrole2 : messages[i].role = .ai := by
    simpa [List.get_eq_getElem] using hrole
  have hcalls2 : messages[i].tool_calls ≠ [] := by
    simpa [List.get_eq_getElem] using hcalls
  unfold essentialIdx
  rw [List.get?_eq_get h]
  simp [List.get_eq_getElem, hrole2, hcalls2]

/-- A tool message in the result window of an AI message with tool calls is
essential. -/
theorem essentialIdx_of_tool_result (messages : List Message) (keep_last i0 i : ℕ)
    (h0 : i0 < messages.length) (h : i < messages.length) (h0i : i0 < i)
    (hrole0 : (messages.get ⟨i0, h0⟩).role = .ai)
    (hcalls : (messages.get ⟨i0, h0⟩).tool_calls ≠ [])
    (hwin : i < i0 + (messages.get ⟨i0, h0⟩).tool_calls.length + 1)
    (hrole : (messages.get ⟨i, h⟩).role = .tool) :
    essentialIdx messages keep_last i = true := by
  have hrole2 : messages[i].role = .tool := by
    simpa [List.get_eq_getElem] using hrole
  have hrole02 : messages[i0].role = .ai := by
    simpa [List.get_eq_getElem] using hrole0
  have hcalls2 : messages[i0].tool_calls ≠ [] := by
    simpa [List.get_eq_getElem] using hcalls
  have hwin2 : i < i0 + messages[i0].tool_calls.length + 1 := by
    simpa [List.get_eq_getElem] using hwin
  unfold essentialIdx
  rw [List.get?_eq_get h]
  simp [List.get_eq_getElem, hrole2]
  refine Or.inr ⟨i0, h0i, ?_⟩
  rw [List.getElem?_eq_getElem h0]
  simp [hrole02, hcalls2, hwin2]

/-- Indices selected for removal by `prune_oldest_messages` (with essential
preservation on) are never essential. -/
theorem remove_indices_not_essential (messages : List Message) (target_count i : ℕ)
    (hmem : i ∈ (((List.range messages.length).filter
        (fun j => !(essentialIdx messages 4 j))).take
          (messages.length - target_count)) ) :
    essentialIdx messages 4 i = false := by
  have hp : i ∈ (List.range messages.length).filter
      (fun j => !(essentialIdx messages 4 j)) :=
    (List.take_sublist _ _).subset hmem
  have := (List.mem_filter.mp hp).2
  simpa using this

/-- Unfolding of the non-trivial branch of `prune_oldest_messages` with
essential preservation on. -/
theorem prune_oldest_else (messages : List Message) (target_count : ℕ)
    (hlen : ¬ messages.length ≤ target_count) :
    prune_oldest_messages messages target_count true =
      (((messages.enum.filter (fun p => !((((List.range messages.length).filter
          (fun j => !(essentialIdx messages 4 j))).take
            (messages.length - target_count)).contains p.1))).map Prod.snd),
       (((List.range messages.length).filter
          (fun j => !(essentialIdx messages 4 j))).take
            (messages.length - target_count)).length) := by
  unfold prune_oldest_messages
  rw [if_neg hlen]
  rfl

/-- Kept indices appear in the eviction result. -/
theorem mem_prune_oldest_of_not_removed (messages : List Message)
    (target_count i : ℕ) (h : i < messages.length)
    (hess : essentialIdx messages 4 i = true) :
    messages.get ⟨i, h⟩ ∈ (prune_oldest_messages messages target_count true).1 := by
  by_cases hlen : messages.length ≤ target_count
  · unfold prune_oldest_messages
    rw [if_pos hlen]
    exact List.get_mem messages i h
  · rw [prune_oldest_else messages target_count hlen]
    have henum : (i, messages.get ⟨i, h⟩) ∈ messages.enum := by
      rw [List.mem_iff_getElem]
      refine ⟨i, by simpa [List.enum_length] using h, ?_⟩
      rw [List.getElem_enum]
      simp [List.get_eq_getElem]
    have hkeep : (((List.range messages.length).filter
        (fun j => !(essentialIdx messages 4 j))).take
          (messages.length - target_count)).contains i = false := by
      cases hcon : (((List.range messages.length).filter
          (fun j => !(essentialIdx messages 4 j))).take
            (messages.length - target_count)).contains i with
      | false => rfl
      | true =>
          exfalso
          have hmem : i ∈ ((List.range messages.length).filter
              (fun j => !(essentialIdx messages 4 j))).take
                (messages.length - target_count) := List.elem_iff.mp hcon
          have := remove_indices_not_essential messages target_count i hmem
          rw [hess] at this
          cases this
    refine List.mem_map.mpr ⟨(i, messages.get ⟨i, h⟩), ?_, rfl⟩
    exact List.mem_filter.mpr ⟨henum, by simpa using hkeep⟩

/-- The eviction result keeps the final four messages verbatim as its
suffix. -/
theorem prune_oldest_suffix (messages : List Message) (target_count : ℕ) :
    ∃ pre, (prune_oldest_messages messages target_count true).1 =
      pre ++ messages.drop (messages.length - 4) := by
  by_cases hlen : messages.length ≤ target_count
  · unfold prune_oldest_messages
    rw [if_pos hlen]
    exact ⟨messages.take (messages.length - 4),
      (List.take_append_drop _ _).symm⟩
  · rw [prune_oldest_else messages target_count hlen]
    set remv := ((List.range messages.length).filter
        (fun j => !(essentialIdx messages 4 j))).take
          (messages.length - target_count) with hremv
    set k := messages.length - 4 with hk
    have hsplit : messages.enum =
        messages.enum.take k ++ messages.enum.drop k :=
      (List.take_append_drop _ _).symm
    have hdropkeep : (messages.enum.drop k).filter
        (fun p => !(remv.contains p.1)) = messages.enum.drop k := by
      rw [List.filter_eq_self]
      intro p hp
      rw [List.mem_iff_getElem] at hp
      obtain ⟨j, hj, hpj⟩ := hp
      have hj2 : k + j < messages.length := by
        have := hj
        simp only [List.length_drop, List.enum_length] at this
        omega
      have hpval : p = (k + j, messages[k + j]) := by
        rw [← hpj, List.getElem_drop, List.getElem_enum]
      have hess : essentialIdx messages 4 (k + j) = true := by
        apply essentialIdx_of_recent messages 4 (k + j) hj2
        omega
      have hnotmem : remv.contains (k + j) = false := by
        cases hcon : remv.contains (k + j) with
        | false => rfl
        | true =>
            exfalso
            have hmem : (k + j) ∈ remv := List.elem_iff.mp hcon
            rw [hremv] at hmem
            have := remove_indices_not_essential messages target_count _ hmem
            rw [hess] at this
            cases this
      rw [hpval]
      simpa using hnotmem
    refine ⟨(messages.enum.take k |>.filter
      (fun p => !(remv.contains p.1))).map Prod.snd, ?_⟩
    show (messages.enum.filter (fun p => !(remv.contains p.1))).map Prod.snd =
      ((messages.enum.take k).filter (fun p => !(remv.contains p.1))).map Prod.snd ++
        messages.drop k
    conv_lhs => rw [hsplit]
    rw [List.filter_append, hdropkeep, List.map_append, List.map_drop,
      List.enum_map_snd]

/-- C4 (amended): the eviction stage (`prune_oldest_messages` with
`preserve_essential=True`) returns a sublist of its input that always ends
with the final four input messages unchanged and in order (the pruner
fixes `keep_last = 4` regardless of `min_messages_keep`, which only enters
through the target count), and it never removes a system message, an AI
message carrying tool calls, or a tool message lying in the result window
of such an AI message (a call is never separated from its result).  The
assertion of the original claim that the final four messages of the
optimized list always equal those of the original fails for the full pipeline, whose
earlier compression and duplicate-removal stages may modify or drop
messages in the final four (see the counterexample). -/
theorem prune_oldest_eviction_guarantees :
    (∀ (messages : List Message) (target_count : ℕ),
        ((prune_oldest_messages messages target_count true).1).Sublist messages) ∧
    (∀ (messages : List Message) (target_count : ℕ),
        ∃ pre, (prune_oldest_messages messages target_count true).1 =
          pre ++ messages.drop (messages.length - 4)) ∧
    (∀ (messages : List Message) (target_count i : ℕ) (h : i < messages.length),
        (messages.get ⟨i, h⟩).role = .system →
        messages.get ⟨i, h⟩ ∈ (prune_oldest_messages messages target_count true).1) ∧
    (∀ (messages : List Message) (target_count i : ℕ) (h : i < messages.length),
        (messages.get ⟨i, h⟩).role = .ai →
        (messages.get ⟨i, h⟩).tool_calls ≠ [] →
        messages.get ⟨i, h⟩ ∈ (prune_oldest_messages messages target_count true).1) ∧
    (∀ (messages : List Message) (target_count i0 i : ℕ)
        (h0 : i0 < messages.length) (h : i < messages.length),
        i0 < i →
        (messages.get ⟨i0, h0⟩).role = .ai →
        (messages.get ⟨i0, h0⟩).tool_calls ≠ [] →
        i < i0 + (messages.get ⟨i0, h0⟩).tool_calls.length + 1 →
        (messages.get ⟨i, h⟩).role = .tool →
        messages.get ⟨i, h⟩ ∈ (prune_oldest_messages messages target_count true).1) := by
  refine ⟨?_, ?_, ?_, ?_, ?_⟩
  · intro messages target_count
    by_cases hlen : messages.length ≤ target_count
    · unfold prune_oldest_messages
      rw [if_pos hlen]
    · rw [prune_oldest_else messages target_count hlen]
      have : ((messages.enum.filter (fun p => !((((List.range messages.length).filter
          (fun j => !(essentialIdx messages 4 j))).take
            (messages.length - target_count)).contains p.1))).map Prod.snd).Sublist
          (messages.enum.map Prod.snd) :=
        List.Sublist.map Prod.snd (List.filter_sublist _)
      rwa [List.enum_map_snd] at this
  · exact prune_oldest_suffix
  · intro messages target_count i h hrole
    exact mem_prune_oldest_of_not_removed messages target_count i h
      (essentialIdx_of_system messages 4 i h hrole)
  · intro messages target_count i h hrole hcalls
    exact mem_prune_oldest_of_not_removed messages target_count i h
      (essentialIdx_of_tool_call messages 4 i h hrole hcalls)
  · intro messages target_count i0 i h0 h h0i hrole0 hcalls hwin hrole
    exact mem_prune_oldest_of_not_removed messages target_count i h
      (essentialIdx_of_tool_result messages 4 i0 i h0 h h0i hrole0 hcalls hwin hrole)

/-- Witness for C4 (amended) at a concrete list: evicting a six-message
conversation down to four keeps the system message and the final four
messages as the suffix. -/
theorem prune_oldest_eviction_guarantees_witness :
    (∃ pre, (prune_oldest_messages
        [{ role := .system, content := .str ("sys") },
         { role := .human, content := .str ("m1") },
         { role := .human, content := .str ("m2") },
         { role := .human, content := .str ("m3") },
         { role := .human, content := .str ("m4") },
         { role := .human, content := .str ("m5") }] 4 true).1 =
      pre ++ ([{ role := .system, content := .str ("sys") },
               { role := .human, content := .str ("m1") },
               { role := .human, content := .str ("m2") },
               { role := .human, content := .str ("m3") },
               { role := .human, content := .str ("m4") },
               { role := .human, content := .str ("m5") }] : List Message).drop
        (([{ role := .system, content := .str ("sys") },
           { role := .human, content := .str ("m1") },
           { role := .human, content := .str ("m2") },
           { role := .human, content := .str ("m3") },
           { role := .human, content := .str ("m4") },
           { role := .human, content := .str ("m5") }] : List Message).length - 4)) ∧
    (([{ role := .system, content := .str ("sys") },
       { role := .human, content := .str ("m1") },
       { role := .human, content := .str ("m2") },
       { role := .human, content := .str ("m3") },
       { role := .human, content := .str ("m4") },
       { role := .human, content := .str ("m5") }] : List Message).get
        ⟨0, by decide⟩ ∈ (prune_oldest_messages
          [{ role := .system, content := .str ("sys") },
           { role := .human, content := .str ("m1") },
           { role := .human, content := .str ("m2") },
           { role := .human, content := .str ("m3") },
           { role := .human, content := .str ("m4") },
           { role := .human, content := .str ("m5") }] 4 true).1) :=
  And.intro
    (prune_oldest_eviction_guarantees.2.1
      [{ role := .system, content := .str ("sys") },
       { role := .human, content := .str ("m1") },
       { role := .human, content := .str ("m2") },
       { role := .human, content := .str ("m3") },
       { role := .human, content := .str ("m4") },
       { role := .human, content := .str ("m5") }] 4)
    (prune_oldest_eviction_guarantees.2.2.1
      [{ role := .system, content := .str ("sys") },
       { role := .human, content := .str ("m1") },
       { role := .human, content := .str ("m2") },
       { role := .human, content := .str ("m3") },
       { role := .human, content := .str ("m4") },
       { role := .human, content := .str ("m5") }] 4 0 (by decide) (by decide))

/-! ## C9 / C10 — cosine similarity properties -/

open Classical in
/-- The value `cosine_similarity` computes once the dimension check has
passed (its `ok` payload). -/
noncomputable def cosineValue (vec_a vec_b : List ℚ) : ℝ :=
  let dot_product : ℝ := ((vec_a.zip vec_b).map (fun (p : ℚ × ℚ) => (p.1 : ℝ) * (p.2 : ℝ))).sum
  let norm_a : ℝ := Real.sqrt ((vec_a.map (fun (a : ℚ) => (a : ℝ) * (a : ℝ))).sum)
  let norm_b : ℝ := Real.sqrt ((vec_b.map (fun (b : ℚ) => (b : ℝ) * (b : ℝ))).sum)
  if norm_a = 0 ∨ norm_b = 0 then 0 else dot_product / (norm_a * norm_b)

/-- On dimension-matched inputs, `cosine_similarity` succeeds with
`cosineValue`. -/
theorem cosine_similarity_eq_ok (vec_a vec_b : List ℚ)
    (h : vec_a.length = vec_b.length) :
    cosine_similarity vec_a vec_b = Except.ok (cosineValue vec_a vec_b) := by
  unfold cosine_similarity cosineValue
  rw [if_neg (by simp [h])]
  dsimp only
  split_ifs <;> rfl

/-- The dot product of a vector with itself is its sum of squares. -/
theorem zip_self_dot (v : List ℚ) :
    ((v.zip v).map (fun (p : ℚ × ℚ) => (p.1 : ℝ) * (p.2 : ℝ))).sum =
      (v.map (fun (a : ℚ) => (a : ℝ) * (a : ℝ))).sum := by
  induction v with
  | nil => simp
  | cons x rest ih => simp [List.zip_cons_cons, ih]

/-- The dot product is symmetric for equal-length vectors. -/
theorem dot_comm (vec_a : List ℚ) :
    ∀ (vec_b : List ℚ), vec_a.length = vec_b.length →
      ((vec_a.zip vec_b).map (fun (p : ℚ × ℚ) => (p.1 : ℝ) * (p.2 : ℝ))).sum =
        ((vec_b.zip vec_a).map (fun (p : ℚ × ℚ) => (p.1 : ℝ) * (p.2 : ℝ))).sum := by
  induction vec_a with
  | nil =>
      intro b hb
      cases b with
      | nil => simp
      | cons y ys => simp at hb
  | cons x xs ih =>
      intro b hb
      cases b with
      | nil => simp at hb
      | cons y ys =>
          simp only [List.zip_cons_cons, List.map_cons, List.sum_cons]
          rw [ih ys (by simpa using hb), mul_comm]

/-- C9: cosine self-similarity is exactly `1.0` for every nonzero vector,
and cosine similarity is symmetric on equal-length vectors. -/
theorem cosine_self_and_symm :
    (∀ v : List ℚ, (∃ x ∈ v, x ≠ 0) →
        cosine_similarity v v = Except.ok 1) ∧
    (∀ vec_a vec_b : List ℚ, vec_a.length = vec_b.length →
        cosine_similarity vec_a vec_b = cosine_similarity vec_b vec_a) := by
  constructor
  · intro v hv
    obtain ⟨x, hx, hxne⟩ := hv
    have hnonneg : ∀ y ∈ v.map (fun (a : ℚ) => (a : ℝ) * (a : ℝ)), 0 ≤ y := by
      intro y hy
      obtain ⟨a, -, rfl⟩ := List.mem_map.mp hy
      exact mul_self_nonneg _
    have hxsq : (0 : ℝ) < (x : ℝ) * (x : ℝ) := by
      refine mul_self_pos.mpr ?_
      exact_mod_cast hxne
    have hspos : (0 : ℝ) < (v.map (fun (a : ℚ) => (a : ℝ) * (a : ℝ))).sum :=
      lt_of_lt_of_le hxsq
        (List.single_le_sum hnonneg _ (List.mem_map.mpr ⟨x, hx, rfl⟩))
    have hsqrtpos : (0 : ℝ) < Real.sqrt ((v.map (fun (a : ℚ) => (a : ℝ) * (a : ℝ))).sum) :=
      Real.sqrt_pos.mpr hspos
    rw [cosine_similarity_eq_ok v v rfl]
    unfold cosineValue
    rw [if_neg (by
      push_neg
      constructor <;> exact ne_of_gt hsqrtpos)]
    rw [zip_self_dot, Real.mul_self_sqrt (le_of_lt hspos),
      div_self (ne_of_gt hspos)]
  · intro vec_a vec_b h
    rw [cosine_similarity_eq_ok vec_a vec_b h,
      cosine_similarity_eq_ok vec_b vec_a h.symm]
    unfold cosineValue
    by_cases hz : Real.sqrt ((vec_a.map (fun (a : ℚ) => (a : ℝ) * (a : ℝ))).sum) = 0 ∨
        Real.sqrt ((vec_b.map (fun (b : ℚ) => (b : ℝ) * (b : ℝ))).sum) = 0
    · rw [if_pos hz, if_pos hz.symm]
    · rw [if_neg hz, if_neg (fun hcon => hz hcon.symm)]
      rw [dot_comm vec_a vec_b h, mul_comm]

/-- Witness for C9: `cosine_similarity([1],[1]) = ok 1` and symmetry at a
concrete pair of 2-dimensional vectors. -/
theorem cosine_self_and_symm_witness :
    cosine_similarity [1] [1] = Except.ok 1 ∧
    cosine_similarity [1, 2] [3, 4] = cosine_similarity [3, 4] [1, 2] :=
  And.intro
    (cosine_self_and_symm.1 [1] ⟨1, by decide, by decide⟩)
    (cosine_self_and_symm.2 [1, 2] [3, 4] (by decide))

/-! ## C8 / C10 — dimension-mismatch errors and totality of search -/

/-- The per-item step of the `VectorIndex.search` fold succeeds on a
dimension-matched cube, appending or skipping according to the threshold. -/
theorem search_step_ok (q : List ℚ) (threshold : Option ℝ) (c : MemoryCube)
    (acc : List (MemoryCube × ℝ)) (hlen : q.length = c.embedding.length) :
    (do
      let score ← cosine_similarity q c.embedding
      if passesThreshold threshold score then
        pure (acc ++ [(c, score)])
      else
        pure acc : Except String (List (MemoryCube × ℝ))) =
    Except.ok (if passesThreshold threshold (cosineValue q c.embedding) = true
      then acc ++ [(c, cosineValue q c.embedding)] else acc) := by
  show (cosine_similarity q c.embedding >>= fun score =>
    if passesThreshold threshold score then pure (acc ++ [(c, score)])
    else pure acc) = _
  rw [cosine_similarity_eq_ok q c.embedding hlen]
  show (if passesThreshold threshold (cosineValue q c.embedding) = true
      then (pure (acc ++ [(c, cosineValue q c.embedding)]) :
        Except String (List (MemoryCube × ℝ)))
      else pure acc) = _
  split_ifs <;> rfl

/-- The scoring fold of `VectorIndex.search` succeeds when the
embedding of every member matches the query dimension. -/
theorem search_fold_ok (q : List ℚ) (threshold : Option ℝ) :
    ∀ (items : List MemoryCube),
      (∀ c ∈ items, c.embedding.length = q.length) →
      ∀ acc : List (MemoryCube × ℝ),
        ∃ v, items.foldlM
          (fun acc cube => do
            let score ← cosine_similarity q cube.embedding
            if passesThreshold threshold score then
              pure (acc ++ [(cube, score)])
            else
              pure acc) acc = Except.ok v := by
  intro items
  induction items with
  | nil =>
      intro _ acc
      exact ⟨acc, rfl⟩
  | cons c rest ih =>
      intro hdim acc
      rw [List.foldlM_cons, search_step_ok q threshold c acc (hdim c (by simp)).symm]
      show ∃ v, rest.foldlM _
        (if passesThreshold threshold (cosineValue q c.embedding) = true
          then acc ++ [(c, cosineValue q c.embedding)] else acc) = Except.ok v
      exact ih (fun x hx => hdim x (List.mem_cons_of_mem _ hx)) _

/-- The per-item step of the `search_with_heat` fold on a dimension-matched
cube. -/
theorem heat_step_ok (q : List ℚ) (full : List MemoryCube) (w now : ℚ)
    (c : MemoryCube) (acc : List (MemoryCube × ℝ))
    (hlen : q.length = c.embedding.length) :
    (do
      let similarity ← cosine_similarity q c.embedding
      pure (acc ++ [(c, combinedHeatScore full w now c similarity)])
      : Except String (List (MemoryCube × ℝ))) =
    Except.ok (acc ++ [(c, combinedHeatScore full w now c (cosineValue q c.embedding))]) := by
  show (cosine_similarity q c.embedding >>= fun similarity =>
    pure (acc ++ [(c, combinedHeatScore full w now c similarity)])) = _
  rw [cosine_similarity_eq_ok q c.embedding hlen]
  rfl

/-- The scoring fold of `search_with_heat` produces exactly the list of
members paired with their combined scores. -/
theorem heat_fold_ok (q : List ℚ) (full : List MemoryCube) (w now : ℚ) :
    ∀ (items : List MemoryCube),
      (∀ c ∈ items, c.embedding.length = q.length) →
      ∀ acc : List (MemoryCube × ℝ),
        items.foldlM
          (fun acc cube => do
            let similarity ← cosine_similarity q cube.embedding
            pure (acc ++
              [(cube, combinedHeatScore full w now cube similarity)])) acc =
        Except.ok (acc ++ items.map (fun c =>
          (c, combinedHeatScore full w now c (cosineValue q c.embedding)))) := by
  intro items
  induction items with
  | nil =>
      intro _ acc
      simp [List.foldlM_nil]
      rfl
  | cons c rest ih =>
      intro hdim acc
      rw [List.foldlM_cons, heat_step_ok q full w now c acc (hdim c (by simp)).symm]
      show rest.foldlM _
        (acc ++ [(c, combinedHeatScore full w now c (cosineValue q c.embedding))]) = _
      rw [ih (fun x hx => hdim x (List.mem_cons_of_mem _ hx))]
      simp

/-! ## C2 — `search_with_heat` scoring, ordering, top-k -/

/-- C2: on a non-empty index whose members match the query dimension and
any `heat_weight ∈ [0,1]`, `search_with_heat` succeeds; the result has
`min k n` entries; together with the unreturned remainder it is a
permutation of the members paired with their combined scores
`(1-heat_weight)·cos + heat_weight·(heat/max-heat, with a zero maximum
replaced by the positive constant 1.0)`; it is sorted by combined score
descending; and every returned score dominates every unreturned one
(top-k). -/
theorem search_with_heat_spec :
    ∀ (idx : VectorIndex) (q : List ℚ) (k : ℕ) (heat_weight now : ℚ),
      idx.items ≠ [] → 0 ≤ heat_weight → heat_weight ≤ 1 →
      (∀ c ∈ idx.items, c.embedding.length = q.length) →
      ∃ scored rest : List (MemoryCube × ℝ),
        idx.search_with_heat q k heat_weight now = Except.ok scored ∧
        scored.length = min k idx.items.length ∧
        (scored ++ rest).Perm (idx.items.map (fun c =>
          (c, combinedHeatScore idx.items heat_weight now c
            (cosineValue q c.embedding)))) ∧
        scored.Pairwise (fun a b => b.2 ≤ a.2) ∧
        (∀ p ∈ scored, ∀ r ∈ rest, r.2 ≤ p.2) := by
  intro idx q k w now hne hw0 hw1 hdim
  have hempty : idx.items.isEmpty = false := by
    cases hi : idx.items with
    | nil => exact absurd hi hne
    | cons a l => rfl
  have htrans : ∀ a b c : MemoryCube × ℝ, scoreDescLe a b = true →
      scoreDescLe b c = true → scoreDescLe a c = true := by
    intro a b c hab hbc
    unfold scoreDescLe at hab hbc ⊢
    rw [decide_eq_true_eq] at hab hbc ⊢
    exact le_trans hbc hab
  have htotal : ∀ a b : MemoryCube × ℝ,
      (scoreDescLe a b || scoreDescLe b a) = true := by
    intro a b
    unfold scoreDescLe
    rcases le_total a.2 b.2 with h | h <;> simp [h]
  have hpairwise := List.sorted_mergeSort htrans htotal
    (idx.items.map (fun c =>
      (c, combinedHeatScore idx.items w now c (cosineValue q c.embedding))))
  refine ⟨((idx.items.map (fun c =>
      (c, combinedHeatScore idx.items w now c
        (cosineValue q c.embedding)))).mergeSort scoreDescLe).take k,
    ((idx.items.map (fun c =>
      (c, combinedHeatScore idx.items w now c
        (cosineValue q c.embedding)))).mergeSort scoreDescLe).drop k,
    ?_, ?_, ?_, ?_, ?_⟩
  · unfold VectorIndex.search_with_heat
    simp only [hempty, Bool.false_eq_true, if_false]
    rw [heat_fold_ok q idx.items w now idx.items hdim []]
    rfl
  · simp [List.length_take, List.length_mergeSort]
  · rw [List.take_append_drop]
    exact List.mergeSort_perm _ scoreDescLe
  · refine List.Pairwise.imp ?_
      (List.Pairwise.sublist (List.take_sublist k _) hpairwise)
    intro a b hab
    unfold scoreDescLe at hab
    exact of_decide_eq_true hab
  · intro p hp r hr
    have hsplit := hpairwise
    rw [← List.take_append_drop k ((idx.items.map (fun c =>
      (c, combinedHeatScore idx.items w now c
        (cosineValue q c.embedding)))).mergeSort scoreDescLe)] at hsplit
    have := (List.pairwise_append.mp hsplit).2.2 p hp r hr
    unfold scoreDescLe at this
    exact of_decide_eq_true this

/-- Witness for C2 at a one-cube index with matching dimensions and
`heat_weight = 0`. -/
theorem search_with_heat_spec_witness :
    ∃ scored rest : List (MemoryCube × ℝ),
      VectorIndex.search_with_heat
        { items := [{ id := "c", content := "x", timestamp := 0,
                      embedding := [1], tier := .WARM, access_count := 0,
                      last_access := 0 }] } [1] 1 0 0 = Except.ok scored ∧
      scored.length = min 1 ([{ id := "c", content := "x", timestamp := 0,
                                embedding := [1], tier := .WARM,
                                access_count := 0,
                                last_access := 0 }] : List MemoryCube).length ∧
      (scored ++ rest).Perm (([{ id := "c", content := "x", timestamp := 0,
                                 embedding := [1], tier := .WARM,
                                 access_count := 0,
                                 last_access := 0 }] : List MemoryCube).map
        (fun c =>
          (c, combinedHeatScore [{ id := "c", content := "x", timestamp := 0,
                                   embedding := [1], tier := .WARM,
                                   access_count := 0, last_access := 0 }]
            0 0 c (cosineValue [1] c.embedding)))) ∧
      scored.Pairwise (fun a b => b.2 ≤ a.2) ∧
      (∀ p ∈ scored, ∀ r ∈ rest, r.2 ≤ p.2) :=
  search_with_heat_spec
    { items := [{ id := "c", content := "x", timestamp := 0,
                  embedding := [1], tier := .WARM, access_count := 0,
                  last_access := 0 }] } [1] 1 0 0
    (by decide) (le_refl 0) (by decide) (by decide)

/-! ## C8 — dimension mismatch at the index boundary -/

/-- The scoring fold of `search` raises as soon as it reaches a member with
a mismatched embedding dimension. -/
theorem search_error_fold (q : List ℚ) (threshold : Option ℝ) :
    ∀ (items : List MemoryCube),
      (∃ c ∈ items, c.embedding.length ≠ q.length) →
      ∀ acc : List (MemoryCube × ℝ),
        ∃ e, items.foldlM
          (fun acc cube => do
            let score ← cosine_similarity q cube.embedding
            if passesThreshold threshold score then
              pure (acc ++ [(cube, score)])
            else
              pure acc) acc = Except.error e := by
  intro items
  induction items with
  | nil =>
      intro h
      obtain ⟨c, hc, -⟩ := h
      cases hc
  | cons c rest ih =>
      intro hex acc
      by_cases hc : c.embedding.length = q.length
      · have hrest : ∃ x ∈ rest, x.embedding.length ≠ q.length := by
          obtain ⟨x, hx, hxe⟩ := hex
          rcases List.mem_cons.mp hx with rfl | hx2
          · exact absurd hc hxe
          · exact ⟨x, hx2, hxe⟩
        rw [List.foldlM_cons, search_step_ok q threshold c acc hc.symm]
        show ∃ e, rest.foldlM _ _ = Except.error e
        exact ih hrest _
      · have hcos : cosine_similarity q c.embedding = Except.error
            (let la := q.length
             let lb := c.embedding.length
             s!"Vector dimension mismatch: {la} vs {lb}") := by
          unfold cosine_similarity
          rw [if_pos (fun heq => hc heq.symm)]
        have hstep : (do
            let score ← cosine_similarity q c.embedding
            if passesThreshold threshold score then
              pure (acc ++ [(c, score)])
            else
              pure acc : Except String (List (MemoryCube × ℝ))) =
            Except.error (let la := q.length
              let lb := c.embedding.length
              s!"Vector dimension mismatch: {la} vs {lb}") := by
          show (cosine_similarity q c.embedding >>= fun score =>
            if passesThreshold threshold score then pure (acc ++ [(c, score)])
            else pure acc) = _
          rw [hcos]
          rfl
        refine ⟨(let la := q.length
                 let lb := c.embedding.length
                 s!"Vector dimension mismatch: {la} vs {lb}"), ?_⟩
        rw [List.foldlM_cons, hstep]
        rfl

/-- C8 (amended): a `search` over an index holding any member whose
embedding dimension differs from that of the query raises the dimension-mismatch
`ValueError` instead of returning scores.  The insertion-time half of the
original claim is false: `add`/`add_batch` perform no dimension check (see
the counterexample), so the index does not maintain the fixed-dimension
invariant — the mismatch only surfaces at search time. -/
theorem search_dimension_mismatch_raises :
    ∀ (idx : VectorIndex) (q : List ℚ) (k : ℕ) (threshold : Option ℝ),
      (∃ c ∈ idx.items, c.embedding.length ≠ q.length) →
      ∃ e, idx.search q k threshold = Except.error e := by
  intro idx q k threshold hex
  have hempty : idx.items.isEmpty = false := by
    obtain ⟨c, hc, -⟩ := hex
    cases hi : idx.items with
    | nil => rw [hi] at hc; cases hc
    | cons a l => rfl
  unfold VectorIndex.search
  simp only [hempty, Bool.false_eq_true, if_false]
  obtain ⟨e, he⟩ := search_error_fold q threshold idx.items hex []
  refine ⟨e, ?_⟩
  show (idx.items.foldlM _ [] >>= _) = Except.error e
  rw [he]
  rfl

/-- Witness for C8 (amended): searching a one-cube index of dimension 3
with a 1-dimensional query raises. -/
theorem search_dimension_mismatch_raises_witness :
    ∃ e, VectorIndex.search
      { items := [{ id := "c", content := "x", timestamp := 0,
                    embedding := [1, 2, 3], tier := .WARM, access_count := 0,
                    last_access := 0 }] } [1] 5 none = Except.error e :=
  search_dimension_mismatch_raises
    { items := [{ id := "c", content := "x", timestamp := 0,
                  embedding := [1, 2, 3], tier := .WARM, access_count := 0,
                  last_access := 0 }] } [1] 5 none
    (by decide)

/-- Counterexample for C8: `add` silently accepts a cube whose embedding
dimension differs from that of the first inserted cube — after two `add` calls
the index holds members of dimensions 2 and 3, so the fixed-dimension
invariant does not hold and no insertion failed fast. -/
theorem add_accepts_mismatched_dimensions :
    ((VectorIndex.add
        (VectorIndex.add { items := [] }
          { id := "a", content := "x", timestamp := 0, embedding := [1, 2],
            tier := .WARM, access_count := 0, last_access := 0 })
        { id := "b", content := "y", timestamp := 0, embedding := [1, 2, 3],
          tier := .WARM, access_count := 0,
          last_access := 0 }).get_all.map (fun c => c.embedding.length) =
      [2, 3]) ∧ (2 : ℕ) ≠ 3 := by
  constructor <;> decide

/-! ## C10 — zero vectors are safe -/

/-- C10: `cosine_similarity` returns `0.0` (rather than dividing by zero or
raising) whenever either equal-length vector is all zero, and both `search`
and `search_with_heat` succeed on every index whose members match the query
dimension — including all-zero embeddings and all-zero queries. -/
theorem zero_vector_safety :
    (∀ vec_a vec_b : List ℚ, vec_a.length = vec_b.length →
        ((∀ x ∈ vec_a, x = 0) ∨ (∀ x ∈ vec_b, x = 0)) →
        cosine_similarity vec_a vec_b = Except.ok 0) ∧
    (∀ (idx : VectorIndex) (q : List ℚ) (k : ℕ) (threshold : Option ℝ),
        (∀ c ∈ idx.items, c.embedding.length = q.length) →
        ∃ r, idx.search q k threshold = Except.ok r) ∧
    (∀ (idx : VectorIndex) (q : List ℚ) (k : ℕ) (heat_weight now : ℚ),
        (∀ c ∈ idx.items, c.embedding.length = q.length) →
        ∃ r, idx.search_with_heat q k heat_weight now = Except.ok r) := by
  refine ⟨?_, ?_, ?_⟩
  · intro vec_a vec_b h hz
    rw [cosine_similarity_eq_ok vec_a vec_b h]
    unfold cosineValue
    have hcond : Real.sqrt ((vec_a.map (fun (a : ℚ) => (a : ℝ) * (a : ℝ))).sum) = 0 ∨
        Real.sqrt ((vec_b.map (fun (b : ℚ) => (b : ℝ) * (b : ℝ))).sum) = 0 := by
      rcases hz with hza | hzb
      · left
        have : (vec_a.map (fun (a : ℚ) => (a : ℝ) * (a : ℝ))).sum = 0 := by
          apply List.sum_eq_zero
          intro y hy
          obtain ⟨a, ha, rfl⟩ := List.mem_map.mp hy
          rw [hza a ha]
          norm_num
        rw [this, Real.sqrt_zero]
      · right
        have : (vec_b.map (fun (b : ℚ) => (b : ℝ) * (b : ℝ))).sum = 0 := by
          apply List.sum_eq_zero
          intro y hy
          obtain ⟨b, hb, rfl⟩ := List.mem_map.mp hy
          rw [hzb b hb]
          norm_num
        rw [this, Real.sqrt_zero]
    rw [if_pos hcond]
  · intro idx q k threshold hdim
    by_cases hempty : idx.items.isEmpty
    · refine ⟨[], ?_⟩
      unfold VectorIndex.search
      rw [if_pos hempty]
    · unfold VectorIndex.search
      simp only [Bool.not_eq_true] at hempty
      simp only [hempty, Bool.false_eq_true, if_false]
      obtain ⟨v, hv⟩ := search_fold_ok q threshold idx.items hdim []
      refine ⟨(v.mergeSort scoreDescLe).take k, ?_⟩
      show (idx.items.foldlM _ [] >>= _) = _
      rw [hv]
      rfl
  · intro idx q k heat_weight now hdim
    by_cases hempty : idx.items.isEmpty
    · refine ⟨[], ?_⟩
      unfold VectorIndex.search_with_heat
      rw [if_pos hempty]
    · unfold VectorIndex.search_with_heat
      simp only [Bool.not_eq_true] at hempty
      simp only [hempty, Bool.false_eq_true, if_false]
      refine ⟨((([] : List (MemoryCube × ℝ)) ++ idx.items.map (fun c =>
        (c, combinedHeatScore idx.items heat_weight now c
          (cosineValue q c.embedding)))).mergeSort scoreDescLe).take k, ?_⟩
      rw [heat_fold_ok q idx.items heat_weight now idx.items hdim []]
      rfl

/-- Witness for C10: an all-zero pair gives similarity `0.0`, and both
searches succeed on an index with an all-zero embedding queried with an
all-zero vector. -/
theorem zero_vector_safety_witness :
    cosine_similarity [0, 0] [0, 0] = Except.ok 0 ∧
    (∃ r, VectorIndex.search
      { items := [{ id := "z", content := "x", timestamp := 0,
                    embedding := [0, 0], tier := .WARM, access_count := 0,
                    last_access := 0 }] } [0, 0] 5 none = Except.ok r) ∧
    (∃ r, VectorIndex.search_with_heat
      { items := [{ id := "z", content := "x", timestamp := 0,
                    embedding := [0, 0], tier := .WARM, access_count := 0,
                    last_access := 0 }] } [0, 0] 5 (3/10) 0 = Except.ok r) :=
  And.intro
    (zero_vector_safety.1 [0, 0] [0, 0] (by decide) (Or.inl (by decide)))
    (And.intro
      (zero_vector_safety.2.1
        { items := [{ id := "z", content := "x", timestamp := 0,
                      embedding := [0, 0], tier := .WARM, access_count := 0,
                      last_access := 0 }] } [0, 0] 5 none (by decide))
      (zero_vector_safety.2.2
        { items := [{ id := "z", content := "x", timestamp := 0,
                      embedding := [0, 0], tier := .WARM, access_count := 0,
                      last_access := 0 }] } [0, 0] 5 (3/10) 0 (by decide)))

end GnxCli
